import Mathlib

/-!
Verification development for the librle Return Link Encapsulation (RLE) codec.

The definitions below are a shallow embedding of the librle sources:
bytes are `Nat` values below 256, byte sequences are `List Nat`, and the
C functions become pure Lean functions on explicit state records.
Functions taken verbatim from files present in the source tree keep their
C names; parts of the pipeline whose implementation files are absent from
the tree (header construction, fragmentation, FPDU pack/unpack, trailer
validation, the public transmitter entry points) are modelled from the
specification text and marked as such in their doc comments.
-/

namespace RLE

/-! ### Protocol-type constants (rle_header_proto_type_field.h values) -/

def RLE_PROTO_TYPE_SIGNAL_UNCOMP : Nat := 0x0082
def RLE_PROTO_TYPE_VLAN_UNCOMP : Nat := 0x8100
def RLE_PROTO_TYPE_IPV4_UNCOMP : Nat := 0x0800
def RLE_PROTO_TYPE_IPV6_UNCOMP : Nat := 0x86dd
def RLE_PROTO_TYPE_VLAN_COMP_WO_PTYPE_FIELD : Nat := 0x31
def RLE_PROTO_TYPE_IP_COMP : Nat := 0x30
def RLE_PROTO_TYPE_SIGNAL_COMP : Nat := 0x42
def RLE_MAX_PDU_SIZE : Nat := 4088

/-! ### Configuration (struct rle_config) -/

structure rle_config where
  allow_ptype_omission : Bool
  use_compressed_ptype : Bool
  allow_alpdu_crc : Bool
  allow_alpdu_sequence_number : Bool
  use_explicit_payload_header_map : Bool
  implicit_protocol_type : Nat
  implicit_ppdu_label_size : Nat
  implicit_payload_label_size : Nat
  type_0_alpdu_label_size : Nat
deriving DecidableEq

/-- Compressed protocol-type codes that a configuration may declare as the
implicit protocol type.  Modelled from the spec: the configuration is
rejected when `implicit_protocol_type` is 0x31 or an undefined code. -/
def valid_implicit_ptype (c : Nat) : Bool :=
  c == 0x00 || c == 0x0d || c == 0x0e || c == 0x0f || c == 0x11 ||
    c == 0x19 || c == 0x1a || c == 0x30 || c == 0x42

/-- Modelled from the spec: configuration validation (label sizes at most
15, a defined implicit protocol type, CRC or sequence number allowed, the
reserved explicit-payload-header-map flag clear). -/
def valid_config (conf : rle_config) : Bool :=
  decide (conf.implicit_ppdu_label_size ≤ 15) &&
    decide (conf.implicit_payload_label_size ≤ 15) &&
    decide (conf.type_0_alpdu_label_size ≤ 15) &&
    valid_implicit_ptype conf.implicit_protocol_type &&
    (conf.allow_alpdu_crc || conf.allow_alpdu_sequence_number) &&
    !conf.use_explicit_payload_header_map

/-! ### SDU (struct rle_sdu) -/

structure rle_sdu where
  buffer : List Nat
  protocol_type : Nat
deriving DecidableEq

/-! ### Suppressibility and protocol-type compression tables -/

/-- Translation of `is_suppressible` from src/tests/test_rle_encap.c:
which (SDU protocol type, implicit compressed code) pairs let the ALPDU
header omit the protocol-type field.  Note that the signal type 0x0082 is
suppressible against every implicit code. -/
def is_suppressible (protocol_type default_ptype : Nat) : Bool :=
  if protocol_type = 0x0082 then true
  else if protocol_type = 0x8100 then default_ptype == 0x0f
  else if protocol_type = 0x88a8 then default_ptype == 0x19
  else if protocol_type = 0x9100 then default_ptype == 0x1a
  else if protocol_type = 0x0800 then default_ptype == 0x0d || default_ptype == 0x30
  else if protocol_type = 0x86dd then default_ptype == 0x11 || default_ptype == 0x30
  else if protocol_type = 0x0806 then default_ptype == 0x0e
  else false

/-- Modelled from the spec: the 16-bit uncompressed EtherType to 8-bit RLE
compressed code mapping of §4.1 (unknown types have no code and use the
0xff fallback). -/
def rle_header_ptype_compression (ptype : Nat) : Option Nat :=
  if ptype = 0x0800 then some 0x0d
  else if ptype = 0x86dd then some 0x11
  else if ptype = 0x8100 then some 0x0f
  else if ptype = 0x88a8 then some 0x19
  else if ptype = 0x9100 then some 0x1a
  else if ptype = 0x0806 then some 0x0e
  else none

/-- Modelled from the spec: inverse direction of the compression table,
used by the receiver to recover the uncompressed protocol type. -/
def rle_header_ptype_decompression (c : Nat) : Option Nat :=
  if c = 0x0d then some 0x0800
  else if c = 0x11 then some 0x86dd
  else if c = 0x0f then some 0x8100
  else if c = 0x19 then some 0x88a8
  else if c = 0x1a then some 0x9100
  else if c = 0x0e then some 0x0806
  else none

/-- Modelled from the spec and test_rle_encap.c: the protocol type is
omitted from the ALPDU header for signalling SDUs (always, as the test's
expected headers encode) and, when `allow_ptype_omission` is set, for the
suppressible pairs of the table. -/
def ptype_is_omitted (conf : rle_config) (ptype : Nat) : Bool :=
  ptype == RLE_PROTO_TYPE_SIGNAL_UNCOMP ||
    (conf.allow_ptype_omission && is_suppressible ptype conf.implicit_protocol_type)

/-- Modelled from the spec (§4.1) and the expected headers of
test_rle_encap.c: the ALPDU header is empty when the type is omitted, a
single compressed code byte when compression applies and the type is
known, the fallback byte 0xff followed by the little-endian uncompressed
type when compression applies and the type is unknown, and the
little-endian uncompressed type otherwise. -/
def alpdu_hdr (conf : rle_config) (ptype : Nat) : List Nat :=
  if ptype_is_omitted conf ptype then []
  else if conf.use_compressed_ptype then
    match rle_header_ptype_compression ptype with
    | some c => [c]
    | none => [0xff, ptype % 256, ptype / 256 % 256]
  else [ptype % 256, ptype / 256 % 256]

/-! ### CRC-32 (src/crc.c is absent; standard reflected CRC-32) -/

/-- Modelled from the spec: one bit step of the reflected CRC-32 with
polynomial 0xEDB88320. -/
def crc32_bit (r : Nat) : Nat :=
  if r % 2 = 1 then (r / 2) ^^^ 0xEDB88320 else r / 2

/-- Modelled from the spec: absorb one byte into the CRC-32 register. -/
def crc32_byte (r b : Nat) : Nat :=
  crc32_bit (crc32_bit (crc32_bit (crc32_bit
    (crc32_bit (crc32_bit (crc32_bit (crc32_bit (r ^^^ b % 256))))))))

/-- Modelled from the spec: CRC-32 of a byte sequence. -/
def crc32 (data : List Nat) : Nat :=
  0xFFFFFFFF ^^^ data.foldl crc32_byte 0xFFFFFFFF

/-- Modelled from the spec (§6.1): the 4-byte little-endian CRC trailer. -/
def crc32_bytes (data : List Nat) : List Nat :=
  [crc32 data % 256, crc32 data / 256 % 256,
   crc32 data / 65536 % 256, crc32 data / 16777216 % 256]

/-! ### PPDU headers, bit-exact per the on-wire formats of spec §6.1.
The fields are laid out big-endian inside each 16-bit word:
COMP `S(1) E(1) LT(2) PTS(1) length(11)`,
START `S(1) E(1) LT(2) PTS(1) fraglen(11) fragid(3) total(12) useCRC(1)`,
CONT/END `S(1) E(1) fraglen(11) fragid(3)`. -/

/-- Modelled from the spec: the 2-byte Complete PPDU header. -/
def ppdu_comp_hdr (lt pts len : Nat) : List Nat :=
  [0x80 + 0x40 + lt * 16 + pts * 8 + len / 256, len % 256]

/-- Modelled from the spec: the 4-byte Start PPDU header. -/
def ppdu_start_hdr (lt pts fraglen fragid total usecrc : Nat) : List Nat :=
  [0x80 + lt * 16 + pts * 8 + fraglen / 256, fraglen % 256,
   fragid * 32 + total / 128, total % 128 * 2 + usecrc]

/-- Modelled from the spec: the 2-byte Continuation PPDU header. -/
def ppdu_cont_hdr (fraglen fragid : Nat) : List Nat :=
  [fraglen / 32, fraglen % 32 * 8 + fragid]

/-- Modelled from the spec: the 2-byte End PPDU header. -/
def ppdu_end_hdr (fraglen fragid : Nat) : List Nat :=
  [0x40 + fraglen / 32, fraglen % 32 * 8 + fragid]

/-- Modelled from the spec: the ALPDU label type carried in COMP and START
PPDU headers; 3 flags a signalling SDU, 0 is the default label type. -/
def lt_of (ptype : Nat) : Nat :=
  if ptype == RLE_PROTO_TYPE_SIGNAL_UNCOMP then 3 else 0

/-- Modelled from the spec: the protocol-type-suppressed bit of COMP and
START PPDU headers. -/
def pts_of (conf : rle_config) (ptype : Nat) : Nat :=
  if ptype_is_omitted conf ptype then 1 else 0

/-! ### Transmitter pipeline (encap.c, fragmentation.c, pack.c are absent
from the source tree; modelled from spec §4.1–§4.3).  One SDU is turned
into an ALPDU, cut into PPDUs that each fill one FPDU of size `F`, and
each PPDU is zero-padded to the full FPDU size. -/

/-- Modelled from the spec: the ALPDU trailer reserved when the ALPDU is
fragmented; 4 CRC bytes over the ALPDU header plus SDU when the
configuration allows the CRC trailer, else one byte holding the 3-bit
sequence number in its low bits (§6.1). -/
def alpdu_trailer (conf : rle_config) (seq : Nat) (alpdu0 : List Nat) : List Nat :=
  if conf.allow_alpdu_crc then crc32_bytes alpdu0 else [seq % 8]

/-- Modelled from the spec: emit the CONT/END PPDUs that follow the START
PPDU.  `tlen` is the trailer length; a CONT never cuts into the trailer
(spec §4.2: the last fragment always contains the trailer) and a fragment
length never exceeds the 11-bit length field.  `fuel` bounds recursion
and is always at least `rest.length` at the call sites. -/
def frag_rest (F fragid tlen : Nat) : Nat → List Nat → List (List Nat)
  | 0, _ => []
  | fuel + 1, rest =>
    if rest.length ≤ min (F - 2) 2047 then
      [ppdu_end_hdr rest.length fragid ++ rest]
    else
      let p := min (F - 2) (min 2047 (rest.length - tlen))
      (ppdu_cont_hdr p fragid ++ rest.take p) ::
        frag_rest F fragid tlen fuel (rest.drop p)

/-- Modelled from the spec: the complete PPDU stream for one SDU.  The
whole ALPDU goes out as a single Complete PPDU when it fits the FPDU and
the 11-bit length field; otherwise a trailer is reserved and the ALPDU
leaves as START followed by CONT/END fragments.  The per-context sequence
number is 0 (fresh context). -/
def transmit_ppdus (conf : rle_config) (sdu_bytes : List Nat) (ptype fragid F : Nat) :
    List (List Nat) :=
  let alpdu0 := alpdu_hdr conf ptype ++ sdu_bytes
  let L0 := alpdu0.length
  if L0 + 2 ≤ F ∧ L0 ≤ 2047 then
    [ppdu_comp_hdr (lt_of ptype) (pts_of conf ptype) L0 ++ alpdu0]
  else
    let tr := alpdu_trailer conf 0 alpdu0
    let full := alpdu0 ++ tr
    let L := full.length
    let p0 := min (F - 4) (min 2047 (L - tr.length))
    let usecrc := if conf.allow_alpdu_crc then 1 else 0
    (ppdu_start_hdr (lt_of ptype) (pts_of conf ptype) p0 fragid L usecrc ++ full.take p0) ::
      frag_rest F fragid tr.length (full.drop p0).length (full.drop p0)

/-- Modelled from the spec (§4.3): each PPDU is packed into its own FPDU
of the fixed size `F` and the remainder is zero padding. -/
def pack_fpdus (F : Nat) (ppdus : List (List Nat)) : List (List Nat) :=
  ppdus.map (fun p => p ++ List.replicate (F - p.length) 0)

/-! ### Receiver-side header accessors (header.h getters used by
reassembly.c; modelled from the bit layouts of spec §6.1). -/

/-- Modelled from the spec: protocol-type-suppressed bit of a COMP or
START PPDU header. -/
def ppdu_hdr_get_is_suppressed (ppdu : List Nat) : Bool :=
  ppdu.getD 0 0 / 8 % 2 == 1

/-- Modelled from the spec: whether the ALPDU label type of a COMP or
START PPDU header is 3, i.e. a signalling SDU. -/
def ppdu_hdr_get_is_signal (ppdu : List Nat) : Bool :=
  ppdu.getD 0 0 / 16 % 4 == 3

/-- Modelled from the spec: fragment id of a START PPDU header. -/
def rle_start_ppdu_hdr_get_frag_id (ppdu : List Nat) : Nat :=
  ppdu.getD 2 0 / 32

/-- Modelled from the spec: fragment id of a CONT or END PPDU header. -/
def rle_cont_end_ppdu_hdr_get_frag_id (ppdu : List Nat) : Nat :=
  ppdu.getD 1 0 % 8

/-- Modelled from the spec: the ALPDU fragment carried by a COMP PPDU. -/
def comp_ppdu_extract_alpdu_frag (ppdu : List Nat) : List Nat := ppdu.drop 2

/-- Modelled from the spec: the ALPDU fragment, declared total ALPDU
length and use-CRC flag carried by a START PPDU. -/
def start_ppdu_extract_alpdu_frag (ppdu : List Nat) : List Nat × Nat × Bool :=
  (ppdu.drop 4, ppdu.getD 2 0 % 32 * 128 + ppdu.getD 3 0 / 2, ppdu.getD 3 0 % 2 == 1)

/-- Modelled from the spec: the ALPDU fragment carried by a CONT or END
PPDU. -/
def cont_end_ppdu_extract_alpdu_frag (ppdu : List Nat) : List Nat := ppdu.drop 2

/-! ### ALPDU header removal at the receiver (the
`*_alpdu_extract_sdu_frag` helpers called by reassembly.c live in the
absent header.c; modelled from spec §4.1/§4.5).  Each returns the
recovered uncompressed protocol type, the compressed protocol type, the
SDU fragment and the ALPDU header length. -/

/-- Modelled from the spec: ALPDU with label type 3; the implicit
protocol type is L2S signalling. -/
def signal_alpdu_extract_sdu_frag (alpdu_frag : List Nat) :
    Option (Nat × Nat × List Nat × Nat) :=
  some (RLE_PROTO_TYPE_SIGNAL_UNCOMP, RLE_PROTO_TYPE_SIGNAL_COMP, alpdu_frag, 0)

/-- Modelled from the spec: ALPDU with a suppressed protocol type; the
configured implicit protocol type applies, with code 0x30 resolved to
IPv4 or IPv6 from the first payload nibble. -/
def suppr_alpdu_extract_sdu_frag (alpdu_frag : List Nat) (conf : rle_config) :
    Option (Nat × Nat × List Nat × Nat) :=
  let c := conf.implicit_protocol_type
  if c = RLE_PROTO_TYPE_IP_COMP then
    match alpdu_frag with
    | [] => none
    | b :: _ =>
      if b / 16 % 16 = 4 then some (RLE_PROTO_TYPE_IPV4_UNCOMP, c, alpdu_frag, 0)
      else if b / 16 % 16 = 6 then some (RLE_PROTO_TYPE_IPV6_UNCOMP, c, alpdu_frag, 0)
      else none
  else if c = RLE_PROTO_TYPE_SIGNAL_COMP then
    some (RLE_PROTO_TYPE_SIGNAL_UNCOMP, c, alpdu_frag, 0)
  else
    match rle_header_ptype_decompression c with
    | some p => some (p, c, alpdu_frag, 0)
    | none => none

/-- Modelled from the spec: ALPDU with a compressed protocol type; one
code byte, or the 0xff fallback followed by the little-endian
uncompressed type. -/
def comp_alpdu_extract_sdu_frag (alpdu_frag : List Nat) :
    Option (Nat × Nat × List Nat × Nat) :=
  match alpdu_frag with
  | [] => none
  | c :: rest =>
    if c = 0xff then
      match rest with
      | lo :: hi :: sdu => some (lo + 256 * hi, 0xff, sdu, 3)
      | _ => none
    else if c = RLE_PROTO_TYPE_VLAN_COMP_WO_PTYPE_FIELD then
      some (RLE_PROTO_TYPE_VLAN_UNCOMP, c, rest, 1)
    else
      match rle_header_ptype_decompression c with
      | some p => some (p, c, rest, 1)
      | none => none

/-- Modelled from the spec: ALPDU with the plain 2-byte little-endian
uncompressed protocol type. -/
def uncomp_alpdu_extract_sdu_frag (alpdu_frag : List Nat) :
    Option (Nat × Nat × List Nat × Nat) :=
  match alpdu_frag with
  | lo :: hi :: sdu => some (lo + 256 * hi, 0, sdu, 2)
  | _ => none

/-- The ALPDU header-removal dispatch shared by `reassembly_comp_ppdu`
and `reassembly_start_ppdu` of src/unnamed/part_001 (reassembly.c): the
branch is selected by the suppressed and signal header bits and by
`use_compressed_ptype`. -/
def alpdu_extract (conf : rle_config) (suppressed is_sig : Bool)
    (alpdu_frag : List Nat) : Option (Nat × Nat × List Nat × Nat) :=
  if suppressed then
    if is_sig then signal_alpdu_extract_sdu_frag alpdu_frag
    else suppr_alpdu_extract_sdu_frag alpdu_frag conf
  else if conf.use_compressed_ptype then comp_alpdu_extract_sdu_frag alpdu_frag
  else uncomp_alpdu_extract_sdu_frag alpdu_frag

/-- Translation of `reassembly_insert_vlan_ptype` from
src/unnamed/part_001 (reassembly.c): rebuild the suppressed VLAN
protocol-type field from the IP-version nibble of the VLAN payload.  The
Ethernet header is 14 bytes with the EtherType at offsets 12–13, the
VLAN header without its protocol field is 2 bytes, so the payload starts
at offset 16 and the restored type is inserted there (network byte
order), giving an SDU 2 bytes longer with protocol type VLAN.  Returns
the rebuilt SDU bytes and protocol type, or `none` for frames that are
too short, have a non-VLAN outer EtherType or an IP version other than 4
or 6. -/
def reassembly_insert_vlan_ptype (sdu_frag : List Nat) : Option (List Nat × Nat) :=
  if sdu_frag.length < 17 then none
  else
    let eth_proto_type := sdu_frag.getD 12 0 * 256 + sdu_frag.getD 13 0
    let ip_version := sdu_frag.getD 16 0 / 16 % 16
    if eth_proto_type ≠ RLE_PROTO_TYPE_VLAN_UNCOMP then none
    else if ip_version = 4 then
      some (sdu_frag.take 16 ++ [0x08, 0x00] ++ sdu_frag.drop 16,
            RLE_PROTO_TYPE_VLAN_UNCOMP)
    else if ip_version = 6 then
      some (sdu_frag.take 16 ++ [0x86, 0xdd] ++ sdu_frag.drop 16,
            RLE_PROTO_TYPE_VLAN_UNCOMP)
    else none

/-! ### Receiver context state (struct rle_ctx_mngt plus the reassembly
buffer of the absent reassembly_buffer.c, flattened; one per fragment
id). -/

structure rle_rcv_ctx where
  free : Bool
  sdu_total : Nat
  collected : List Nat
  r_ptype : Nat
  comp_ptype : Nat
  use_crc : Bool
  seq_init : Bool
  next_seq : Nat
  current_counter : Nat
  ctr_in : Nat
  ctr_ok : Nat
  ctr_dropped : Nat
  ctr_lost : Nat
  ctr_bytes_in : Nat
  ctr_bytes_ok : Nat
  ctr_bytes_dropped : Nat
deriving DecidableEq

/-- A fresh, free receiver context with zeroed counters. -/
def init_rcv_ctx : rle_rcv_ctx :=
  { free := true, sdu_total := 0, collected := [], r_ptype := 0, comp_ptype := 0,
    use_crc := false, seq_init := false, next_seq := 0, current_counter := 0,
    ctr_in := 0, ctr_ok := 0, ctr_dropped := 0, ctr_lost := 0,
    ctr_bytes_in := 0, ctr_bytes_ok := 0, ctr_bytes_dropped := 0 }

/-- The error epilogue shared by the reassembly functions of
src/unnamed/part_001: count the SDU dropped, add `lost` to the lost
counter, count the bytes of the current burst as dropped, release the
fragment-id context. -/
def ctx_error_release (c : rle_rcv_ctx) (lost : Nat) : rle_rcv_ctx :=
  { c with ctr_dropped := c.ctr_dropped + 1,
           ctr_lost := c.ctr_lost + lost,
           ctr_bytes_dropped := c.ctr_bytes_dropped + c.current_counter,
           free := true }

/-- Modelled from the spec (§4.5): ALPDU trailer validation, the
`check_alpdu_trailer` of the absent trailer.c.  In CRC mode the 4 trailer
bytes must equal the CRC-32 of the ALPDU header plus SDU.  In
sequence-number mode the low 3 bits of the single trailer byte are the
sender's number; the first END on a context records it, later ENDs
report the modulo-8 gap as lost packets.  Returns
`some (lost, seq_init, next_seq)` on success, `none` on mismatch. -/
def check_alpdu_trailer (use_crc : Bool) (trailer hdr_sdu : List Nat)
    (seq_init : Bool) (next_seq : Nat) : Option (Nat × Bool × Nat) :=
  if use_crc then
    if trailer = crc32_bytes hdr_sdu then some (0, seq_init, next_seq) else none
  else
    match trailer with
    | [b] =>
      if seq_init then some ((b % 8 + 8 - next_seq % 8) % 8, true, (b % 8 + 1) % 8)
      else some (0, true, (b % 8 + 1) % 8)
    | _ => none

/-- Translation of `reassembly_comp_ppdu` from src/unnamed/part_001:
handle a Complete PPDU, returning the delivered SDU bytes and protocol
type, or `none` on extraction or VLAN-rebuild failure. -/
def reassembly_comp_ppdu (conf : rle_config) (ppdu : List Nat) :
    Option (List Nat × Nat) :=
  let alpdu_frag := comp_ppdu_extract_alpdu_frag ppdu
  match alpdu_extract conf (ppdu_hdr_get_is_suppressed ppdu)
      (ppdu_hdr_get_is_signal ppdu) alpdu_frag with
  | none => none
  | some (ptype, comp_ptype, sdu_frag, _) =>
    if comp_ptype ≠ RLE_PROTO_TYPE_VLAN_COMP_WO_PTYPE_FIELD then
      some (sdu_frag, ptype)
    else reassembly_insert_vlan_ptype sdu_frag

/-- Translation of `reassembly_start_ppdu` from src/unnamed/part_001:
handle a START PPDU on one fragment-id context.  The burst counter and
input counters are updated first; a START on a busy context, a failed
extraction or an inconsistent declared length takes the error epilogue
(drop, one lost, bytes dropped, context released); otherwise the
reassembly buffer is initialised with the first SDU fragment. -/
def reassembly_start_ppdu (conf : rle_config) (c : rle_rcv_ctx) (ppdu : List Nat) :
    rle_rcv_ctx :=
  let c1 := { c with current_counter := ppdu.length,
                     ctr_in := c.ctr_in + 1,
                     ctr_bytes_in := c.ctr_bytes_in + ppdu.length }
  if ¬c1.free then ctx_error_release c1 1
  else
    let ext := start_ppdu_extract_alpdu_frag ppdu
    let alpdu_frag := ext.1
    let alpdu_total_len := ext.2.1
    let is_crc_used := ext.2.2
    match alpdu_extract conf (ppdu_hdr_get_is_suppressed ppdu)
        (ppdu_hdr_get_is_signal ppdu) alpdu_frag with
    | none => ctx_error_release c1 1
    | some (ptype, comp_ptype, sdu_frag, alpdu_hdr_len) =>
      if sdu_frag.length > alpdu_total_len then ctx_error_release c1 1
      else
        let total1 := alpdu_total_len - alpdu_hdr_len
        let alpdu_trailer_len := if is_crc_used then 4 else 1
        if alpdu_trailer_len > total1 then ctx_error_release c1 1
        else
          let sdu_total_len := total1 - alpdu_trailer_len
          if sdu_frag.length > sdu_total_len then
            ctx_error_release { c1 with use_crc := is_crc_used } 1
          else
            { c1 with free := false,
                      use_crc := is_crc_used,
                      sdu_total := sdu_total_len,
                      collected := sdu_frag,
                      r_ptype := ptype,
                      comp_ptype := comp_ptype }

/-- Translation of `reassembly_cont_ppdu` from src/unnamed/part_001:
handle a CONT PPDU on one fragment-id context.  A CONT on a free context
or one that would exceed the declared SDU length takes the error
epilogue with one lost packet; otherwise the fragment is appended. -/
def reassembly_cont_ppdu (c : rle_rcv_ctx) (ppdu : List Nat) : rle_rcv_ctx :=
  let c1 := { c with current_counter := c.current_counter + ppdu.length,
                     ctr_bytes_in := c.ctr_bytes_in + ppdu.length }
  if c1.free then ctx_error_release c1 1
  else
    let sdu_frag := cont_end_ppdu_extract_alpdu_frag ppdu
    if c1.collected.length + sdu_frag.length > c1.sdu_total then
      ctx_error_release c1 1
    else { c1 with collected := c1.collected ++ sdu_frag }

/-- Translation of `reassembly_end_ppdu` from src/unnamed/part_001:
handle an END PPDU on one fragment-id context, returning the updated
context and the delivered SDU if any.  An END on a free context runs the
in-line error block and then the shared error epilogue again, so it
counts the drop twice; later errors (trailer bytes missing, declared
length exceeded, bytes still missing, VLAN rebuild failure, trailer
mismatch) reach the epilogue with `lost_packets` still 0.  The context
is released in every case. -/
def reassembly_end_ppdu (conf : rle_config) (c : rle_rcv_ctx) (ppdu : List Nat) :
    rle_rcv_ctx × Option (List Nat × Nat) :=
  let c1 := { c with current_counter := c.current_counter + ppdu.length,
                     ctr_bytes_in := c.ctr_bytes_in + ppdu.length }
  if c1.free then (ctx_error_release (ctx_error_release c1 1) 0, none)
  else
    let alpdu_frag := cont_end_ppdu_extract_alpdu_frag ppdu
    let rle_trailer_len := if c1.use_crc then 4 else 1
    if alpdu_frag.length < rle_trailer_len then (ctx_error_release c1 0, none)
    else
      let sdu_frag := alpdu_frag.take (alpdu_frag.length - rle_trailer_len)
      let rle_trailer := alpdu_frag.drop (alpdu_frag.length - rle_trailer_len)
      if c1.collected.length + sdu_frag.length > c1.sdu_total then
        (ctx_error_release c1 0, none)
      else
        let c2 := { c1 with collected := c1.collected ++ sdu_frag }
        if c2.sdu_total > c2.collected.length then (ctx_error_release c2 0, none)
        else
          let reassembled :=
            if c2.comp_ptype ≠ RLE_PROTO_TYPE_VLAN_COMP_WO_PTYPE_FIELD then
              some (c2.collected, c2.r_ptype)
            else reassembly_insert_vlan_ptype c2.collected
          match reassembled with
          | none => (ctx_error_release c2 0, none)
          | some sdu =>
            match check_alpdu_trailer c2.use_crc rle_trailer
                (alpdu_hdr conf c2.r_ptype ++ c2.collected)
                c2.seq_init c2.next_seq with
            | none => (ctx_error_release c2 0, none)
            | some (_, si, ns) =>
              ({ c2 with ctr_bytes_ok := c2.ctr_bytes_ok + sdu.1.length,
                         ctr_ok := c2.ctr_ok + 1,
                         seq_init := si, next_seq := ns,
                         free := true }, some sdu)

/-! ### FPDU unpacking and the receiver façade (deencap.c and
rle_receiver.c are absent from the source tree; modelled from spec
§4.4/§4.5: scan an FPDU into PPDUs, stopping at a zero first byte in a
PPDU-header position, and dispatch each PPDU on its start/end bits). -/

/-- Point update of the fragment-id indexed context map. -/
def upd_ctx (m : Nat → rle_rcv_ctx) (i : Nat) (v : rle_rcv_ctx) :
    Nat → rle_rcv_ctx :=
  fun j => if j = i then v else m j

/-- Modelled from the spec: total byte length of the PPDU that starts at
the head of `bytes`, computed from its header (header size plus the
11-bit fragment-length field). -/
def scan_plen (bytes : List Nat) : Nat :=
  if bytes.getD 0 0 / 128 = 1 ∧ bytes.getD 0 0 / 64 % 2 = 0 then
    4 + (bytes.getD 0 0 % 8 * 256 + bytes.getD 1 0)
  else if bytes.getD 0 0 / 128 = 1 then
    2 + (bytes.getD 0 0 % 8 * 256 + bytes.getD 1 0)
  else 2 + (bytes.getD 0 0 % 64 * 32 + bytes.getD 1 0 / 8)

/-- Modelled from the spec: dispatch one PPDU to the reassembly state
machine of its fragment-id context, per the transition table of §4.5.
Returns the updated context map and the delivered SDUs. -/
def rle_receiver_step (conf : rle_config) (ctxs : Nat → rle_rcv_ctx)
    (ppdu : List Nat) : (Nat → rle_rcv_ctx) × List (List Nat × Nat) :=
  let b0 := ppdu.getD 0 0
  if b0 / 128 = 1 ∧ b0 / 64 % 2 = 1 then
    match reassembly_comp_ppdu conf ppdu with
    | some sdu => (ctxs, [sdu])
    | none => (ctxs, [])
  else if b0 / 128 = 1 then
    let fid := rle_start_ppdu_hdr_get_frag_id ppdu
    (upd_ctx ctxs fid (reassembly_start_ppdu conf (ctxs fid) ppdu), [])
  else if b0 / 64 % 2 = 0 then
    let fid := rle_cont_end_ppdu_hdr_get_frag_id ppdu
    (upd_ctx ctxs fid (reassembly_cont_ppdu (ctxs fid) ppdu), [])
  else
    let fid := rle_cont_end_ppdu_hdr_get_frag_id ppdu
    let r := reassembly_end_ppdu conf (ctxs fid) ppdu
    (upd_ctx ctxs fid r.1, r.2.toList)

/-- Modelled from the spec (§4.3/§4.4): scan one FPDU into PPDUs, feeding
each to the receiver; a zero first byte in a PPDU-header position is
padding and ends the FPDU.  `fuel` bounds the loop and is the FPDU
length at the call site. -/
def fpdu_scan (conf : rle_config) :
    Nat → (Nat → rle_rcv_ctx) → List Nat → (Nat → rle_rcv_ctx) × List (List Nat × Nat)
  | 0, ctxs, _ => (ctxs, [])
  | fuel + 1, ctxs, bytes =>
    if bytes.getD 0 0 = 0 then (ctxs, [])
    else
      let plen := scan_plen bytes
      let step := rle_receiver_step conf ctxs (bytes.take plen)
      let rest := fpdu_scan conf fuel step.1 (bytes.drop plen)
      (rest.1, step.2 ++ rest.2)

/-- Modelled from the spec (§6.2): decapsulate a sequence of FPDUs,
collecting every delivered SDU in order. -/
def rle_decapsulate (conf : rle_config) (ctxs : Nat → rle_rcv_ctx) :
    List (List Nat) → (Nat → rle_rcv_ctx) × List (List Nat × Nat)
  | [] => (ctxs, [])
  | f :: rest =>
    let r1 := fpdu_scan conf f.length ctxs f
    let r2 := rle_decapsulate conf r1.1 rest
    (r2.1, r1.2 ++ r2.2)

/-- The full transmit-and-receive pipeline of spec §8, invariant 1:
encapsulate one SDU, emit its PPDUs into FPDUs of size `F`, decapsulate
the FPDU sequence with a fresh receiver sharing the configuration, and
collect the delivered SDUs. -/
def rle_pipeline (conf : rle_config) (sdu : rle_sdu) (fragid F : Nat) :
    List (List Nat × Nat) :=
  (rle_decapsulate conf (fun _ => init_rcv_ctx)
    (pack_fpdus F (transmit_ppdus conf sdu.buffer sdu.protocol_type fragid F))).2

/-! ### The transmitter free-context bitmap (src/src/rle_transmitter.c).
A set bit marks a busy fragment id (`set_nonfree_frag_ctx` sets it on
encapsulation; `is_frag_ctx_free` reports it). -/

/-- Translation of `is_frag_ctx_free` from src/src/rle_transmitter.c:
test bit `frag_id` of the bitmap (C: `(free_ctx >> frag_id) & 0x1`). -/
def is_frag_ctx_free (free_ctx frag_id : Nat) : Bool :=
  free_ctx / 2 ^ frag_id % 2 == 1

/-- Translation of `set_nonfree_frag_ctx` from src/src/rle_transmitter.c:
set bit `index` (C: `free_ctx |= (1 << index)`, stored in a uint8_t). -/
def set_nonfree_frag_ctx (free_ctx index : Nat) : Nat :=
  (free_ctx ||| 1 <<< index) % 256

/-- Translation of `set_free_frag_ctx` from src/src/rle_transmitter.c,
exactly as written there: `free_ctx = (0 << index) & 0xff`. -/
def set_free_frag_ctx (free_ctx index : Nat) : Nat :=
  (0 <<< index) &&& 0xff

/-- The update the surrounding code and spec intend for a context
release: clear only bit `index` of the bitmap. -/
def clear_one_bit (free_ctx index : Nat) : Nat :=
  free_ctx - free_ctx % 2 ^ (index + 1) + free_ctx % 2 ^ index

/-! ### Transmitter context management (src/src/rle_ctx.c). -/

structure rle_ctx_management where
  frag_id : Nat
  next_seq_nb : Nat
  label_type : Nat
  proto_type : Nat
deriving DecidableEq

def RLE_LT_IMPLICIT_PROTO_TYPE : Nat := 0
def RLE_LT_PROTO_SIGNAL : Nat := 3

/-- Translation of `rle_ctx_incr_seq_nb` from src/src/rle_ctx.c: the
bare `next_seq_nb++` on a uint8_t field, which wraps modulo 256. -/
def rle_ctx_incr_seq_nb (c : rle_ctx_management) : rle_ctx_management :=
  { c with next_seq_nb := (c.next_seq_nb + 1) % 256 }

/-- Translation of `rle_ctx_set_label_type` from src/src/rle_ctx.c,
including its guard exactly as written:
`(val != RLE_LT_IMPLICIT_PROTO_TYPE) || (val != RLE_LT_PROTO_SIGNAL)`
reports an invalid value and leaves the stored label type unchanged. -/
def rle_ctx_set_label_type (c : rle_ctx_management) (val : Nat) : rle_ctx_management :=
  if val ≠ RLE_LT_IMPLICIT_PROTO_TYPE ∨ val ≠ RLE_LT_PROTO_SIGNAL then c
  else { c with label_type := val }

/-! ### Transmitter statistics (src/src/rle_transmitter.c). -/

structure rle_ctx_counters where
  ctr_ok : Nat
  ctr_dropped : Nat
  ctr_lost : Nat
  ctr_bytes : Nat
deriving DecidableEq

structure rle_transmitter where
  rle_ctx_man : Nat → rle_ctx_counters

def RLE_MAX_FRAG_NUMBER : Nat := 8

/-- Translation of `rle_transmitter_get_counter_ok` from
src/src/rle_transmitter.c: loop over the eight fragment-id contexts and
accumulate the per-context counter. -/
def rle_transmitter_get_counter_ok (t : rle_transmitter) : Nat :=
  (List.range RLE_MAX_FRAG_NUMBER).foldl
    (fun acc i => acc + (t.rle_ctx_man i).ctr_ok) 0

/-- Translation of `rle_transmitter_get_counter_dropped` from
src/src/rle_transmitter.c. -/
def rle_transmitter_get_counter_dropped (t : rle_transmitter) : Nat :=
  (List.range RLE_MAX_FRAG_NUMBER).foldl
    (fun acc i => acc + (t.rle_ctx_man i).ctr_dropped) 0

/-- Translation of `rle_transmitter_get_counter_lost` from
src/src/rle_transmitter.c. -/
def rle_transmitter_get_counter_lost (t : rle_transmitter) : Nat :=
  (List.range RLE_MAX_FRAG_NUMBER).foldl
    (fun acc i => acc + (t.rle_ctx_man i).ctr_lost) 0

/-- Translation of `rle_transmitter_get_counter_bytes` from
src/src/rle_transmitter.c. -/
def rle_transmitter_get_counter_bytes (t : rle_transmitter) : Nat :=
  (List.range RLE_MAX_FRAG_NUMBER).foldl
    (fun acc i => acc + (t.rle_ctx_man i).ctr_bytes) 0

/-! ### Public encapsulation entry point (the modern `rle_encapsulate`
lives in the absent encap.c; modelled from spec §4.1/§6.2 and the
behaviour pinned by src/tests/test_rle_encap.c). -/

inductive rle_encap_status where
  | ok
  | err
  | err_null_trmt
  | err_sdu_too_big
  | err_ctx_busy
deriving DecidableEq

structure rle_transmitter_state where
  free_ctx : Nat
  alpdu_of : Nat → List Nat

/-- Modelled from the spec: `encapsulate(sdu, frag_id)` first refuses a
busy fragment-id context with `CTX_BUSY` (the check `rle_transmitter.c`
makes at lines 169-178 before touching the context), then rejects an SDU
longer than `RLE_MAX_PDU_SIZE` with `SDU_TOO_BIG`; both failures leave
the transmitter untouched.  Otherwise it builds the ALPDU in the
fragment id's buffer and marks the context busy. -/
def rle_encapsulate (t : rle_transmitter_state) (conf : rle_config)
    (sdu : rle_sdu) (frag_id : Nat) : rle_encap_status × rle_transmitter_state :=
  if is_frag_ctx_free t.free_ctx frag_id then (.err_ctx_busy, t)
  else if RLE_MAX_PDU_SIZE < sdu.buffer.length then (.err_sdu_too_big, t)
  else
    (.ok,
     { free_ctx := set_nonfree_frag_ctx t.free_ctx frag_id,
       alpdu_of := fun j =>
         if j = frag_id then alpdu_hdr conf sdu.protocol_type ++ sdu.buffer
         else t.alpdu_of j })

/-! ### Header-overhead query (rle.c is absent; modelled from spec §6.2
and the expectations of src/unnamed/part_000, test_rle_misc.c). -/

inductive rle_fpdu_types where
  | logon
  | ctrl
  | traffic
  | traffic_ctrl
deriving DecidableEq

inductive rle_header_size_status where
  | size_ok (n : Nat)
  | err_non_deterministic
  | err_invalid_cfg
deriving DecidableEq

/-- Modelled from the spec: `rle_get_header_size(conf, fpdu_type)`.  The
Logon, Control and Traffic-Control FPDU overheads are fixed at 6, 3 and
5 bytes for every configuration; the Traffic FPDU overhead depends on
the runtime protocol type and is reported non-deterministic. -/
def rle_get_header_size (_conf : rle_config) (t : rle_fpdu_types) :
    rle_header_size_status :=
  match t with
  | .logon => .size_ok 6
  | .ctrl => .size_ok 3
  | .traffic_ctrl => .size_ok 5
  | .traffic => .err_non_deterministic

/-- The compressed protocol type the receiver records for an SDU sent
under a given configuration (the value reassembly.c compares against the
VLAN-without-protocol-field code). -/
def comp_code (conf : rle_config) (ptype : Nat) : Nat :=
  if ptype == RLE_PROTO_TYPE_SIGNAL_UNCOMP then RLE_PROTO_TYPE_SIGNAL_COMP
  else if ptype_is_omitted conf ptype then conf.implicit_protocol_type
  else if conf.use_compressed_ptype then
    match rle_header_ptype_compression ptype with
    | some c => c
    | none => 0xff
  else 0

/-- The side condition the implicit-IP configuration needs: when the
protocol type may be omitted under implicit code 0x30 the receiver
re-derives it from the first payload nibble, so that nibble must match
the declared type. -/
def ip_nibble_ok (conf : rle_config) (sdu : rle_sdu) : Prop :=
  conf.allow_ptype_omission = true → conf.implicit_protocol_type = 0x30 →
    (sdu.protocol_type = 0x0800 →
      sdu.buffer ≠ [] ∧ sdu.buffer.getD 0 0 / 16 % 16 = 4) ∧
    (sdu.protocol_type = 0x86dd →
      sdu.buffer ≠ [] ∧ sdu.buffer.getD 0 0 / 16 % 16 = 6)

/-- The ALPDU header length as claim C2 states it: 0 exactly when
`allow_ptype_omission` is set and the (protocol type, implicit code)
pair is suppressible, 1 or 3 under compression, 2 otherwise. -/
def claimed_alpdu_hdr_len (conf : rle_config) (ptype : Nat) : Nat :=
  if conf.allow_ptype_omission && is_suppressible ptype conf.implicit_protocol_type then 0
  else if conf.use_compressed_ptype then
    match rle_header_ptype_compression ptype with
    | some _ => 1
    | none => 3
  else 2

/-- A busy receiver context awaiting 10 SDU bytes, used to exercise the
END-with-missing-bytes error path. -/
def c4_busy_ctx : rle_rcv_ctx :=
  { free := false, sdu_total := 10, collected := [], r_ptype := 0x0800,
    comp_ptype := 0, use_crc := false, seq_init := false, next_seq := 0,
    current_counter := 6, ctr_in := 1, ctr_ok := 0, ctr_dropped := 0,
    ctr_lost := 0, ctr_bytes_in := 6, ctr_bytes_ok := 0, ctr_bytes_dropped := 0 }

/-! ## Helper lemmas for the round-trip proof -/

/-- Removing the ALPDU header at the receiver inverts its construction
at the transmitter: the recorded protocol type, SDU bytes and header
length are recovered exactly, and the recorded compressed type is never
the VLAN-without-protocol-field code. -/
lemma alpdu_extract_round (conf : rle_config) (ptype : Nat) (rest : List Nat)
    (hval : valid_config conf = true) (hpt : ptype < 65536)
    (hnib : conf.allow_ptype_omission = true → conf.implicit_protocol_type = 0x30 →
      (ptype = 0x0800 → rest ≠ [] ∧ rest.getD 0 0 / 16 % 16 = 4) ∧
      (ptype = 0x86dd → rest ≠ [] ∧ rest.getD 0 0 / 16 % 16 = 6)) :
    alpdu_extract conf (ptype_is_omitted conf ptype)
        (ptype == RLE_PROTO_TYPE_SIGNAL_UNCOMP) (alpdu_hdr conf ptype ++ rest)
      = some (ptype, comp_code conf ptype, rest, (alpdu_hdr conf ptype).length) ∧
    comp_code conf ptype ≠ RLE_PROTO_TYPE_VLAN_COMP_WO_PTYPE_FIELD := by
  by_cases hsig : ptype = RLE_PROTO_TYPE_SIGNAL_UNCOMP
  · subst hsig
    simp [alpdu_extract, signal_alpdu_extract_sdu_frag, alpdu_hdr, ptype_is_omitted,
      comp_code, RLE_PROTO_TYPE_SIGNAL_UNCOMP, RLE_PROTO_TYPE_SIGNAL_COMP,
      RLE_PROTO_TYPE_VLAN_COMP_WO_PTYPE_FIELD]
  · have hsigb : (ptype == RLE_PROTO_TYPE_SIGNAL_UNCOMP) = false := by
      simpa using hsig
    have hsig2 : ptype ≠ 130 := by
      simpa [RLE_PROTO_TYPE_SIGNAL_UNCOMP] using hsig
    by_cases homit :
        (conf.allow_ptype_omission && is_suppressible ptype conf.implicit_protocol_type) = true
    · have homitted : ptype_is_omitted conf ptype = true := by
        simp [ptype_is_omitted, homit]
      obtain ⟨ho, hsup⟩ := Bool.and_eq_true_iff.mp homit
      have hhdr : alpdu_hdr conf ptype = [] := by
        simp [alpdu_hdr, homitted]
      rw [homitted, hhdr, hsigb, List.nil_append]
      have hne : [] ≠ rest → True := fun _ => trivial
      unfold is_suppressible at hsup
      rw [if_neg (by simpa [RLE_PROTO_TYPE_SIGNAL_UNCOMP] using hsig)] at hsup
      split_ifs at hsup with h1 h2 h3 h4 h5 h6
      · -- VLAN, implicit 0x0f
        subst h1
        have himp := beq_iff_eq.mp hsup
        simp [alpdu_extract, suppr_alpdu_extract_sdu_frag, comp_code, homitted, hsigb,
          himp, rle_header_ptype_decompression, RLE_PROTO_TYPE_IP_COMP,
          RLE_PROTO_TYPE_SIGNAL_COMP, RLE_PROTO_TYPE_VLAN_COMP_WO_PTYPE_FIELD,
          RLE_PROTO_TYPE_SIGNAL_UNCOMP]
      · -- QinQ, implicit 0x19
        subst h2
        have himp := beq_iff_eq.mp hsup
        simp [alpdu_extract, suppr_alpdu_extract_sdu_frag, comp_code, homitted, hsigb,
          himp, rle_header_ptype_decompression, RLE_PROTO_TYPE_IP_COMP,
          RLE_PROTO_TYPE_SIGNAL_COMP, RLE_PROTO_TYPE_VLAN_COMP_WO_PTYPE_FIELD,
          RLE_PROTO_TYPE_SIGNAL_UNCOMP]
      · -- legacy QinQ, implicit 0x1a
        subst h3
        have himp := beq_iff_eq.mp hsup
        simp [alpdu_extract, suppr_alpdu_extract_sdu_frag, comp_code, homitted, hsigb,
          himp, rle_header_ptype_decompression, RLE_PROTO_TYPE_IP_COMP,
          RLE_PROTO_TYPE_SIGNAL_COMP, RLE_PROTO_TYPE_VLAN_COMP_WO_PTYPE_FIELD,
          RLE_PROTO_TYPE_SIGNAL_UNCOMP]
      · -- IPv4, implicit 0x0d or 0x30
        subst h4
        rcases Bool.or_eq_true_iff.mp hsup with himp | himp
        · have himp := beq_iff_eq.mp himp
          simp [alpdu_extract, suppr_alpdu_extract_sdu_frag, comp_code, homitted, hsigb,
            himp, rle_header_ptype_decompression, RLE_PROTO_TYPE_IP_COMP,
            RLE_PROTO_TYPE_SIGNAL_COMP, RLE_PROTO_TYPE_VLAN_COMP_WO_PTYPE_FIELD,
            RLE_PROTO_TYPE_SIGNAL_UNCOMP]
        · have himp := beq_iff_eq.mp himp
          obtain ⟨hne, hnib4⟩ := ((hnib ho himp).1 rfl)
          obtain ⟨b, t, rfl⟩ : ∃ b t, rest = b :: t := by
            cases rest with
            | nil => exact absurd rfl hne
            | cons b t => exact ⟨b, t, rfl⟩
          simp only [List.getD_cons_zero] at hnib4
          simp [alpdu_extract, suppr_alpdu_extract_sdu_frag, comp_code, homitted, hsigb,
            himp, hnib4, RLE_PROTO_TYPE_IP_COMP, RLE_PROTO_TYPE_IPV4_UNCOMP,
            RLE_PROTO_TYPE_SIGNAL_COMP, RLE_PROTO_TYPE_VLAN_COMP_WO_PTYPE_FIELD,
            RLE_PROTO_TYPE_SIGNAL_UNCOMP]
      · -- IPv6, implicit 0x11 or 0x30
        subst h5
        rcases Bool.or_eq_true_iff.mp hsup with himp | himp
        · have himp := beq_iff_eq.mp himp
          simp [alpdu_extract, suppr_alpdu_extract_sdu_frag, comp_code, homitted, hsigb,
            himp, rle_header_ptype_decompression, RLE_PROTO_TYPE_IP_COMP,
            RLE_PROTO_TYPE_SIGNAL_COMP, RLE_PROTO_TYPE_VLAN_COMP_WO_PTYPE_FIELD,
            RLE_PROTO_TYPE_SIGNAL_UNCOMP]
        · have himp := beq_iff_eq.mp himp
          obtain ⟨hne, hnib6⟩ := ((hnib ho himp).2 rfl)
          obtain ⟨b, t, rfl⟩ : ∃ b t, rest = b :: t := by
            cases rest with
            | nil => exact absurd rfl hne
            | cons b t => exact ⟨b, t, rfl⟩
          simp only [List.getD_cons_zero] at hnib6
          simp [alpdu_extract, suppr_alpdu_extract_sdu_frag, comp_code, homitted, hsigb,
            himp, hnib6, RLE_PROTO_TYPE_IP_COMP, RLE_PROTO_TYPE_IPV6_UNCOMP,
            RLE_PROTO_TYPE_SIGNAL_COMP, RLE_PROTO_TYPE_VLAN_COMP_WO_PTYPE_FIELD,
            RLE_PROTO_TYPE_SIGNAL_UNCOMP]
      · -- ARP, implicit 0x0e
        subst h6
        have himp := beq_iff_eq.mp hsup
        simp [alpdu_extract, suppr_alpdu_extract_sdu_frag, comp_code, homitted, hsigb,
          himp, rle_header_ptype_decompression, RLE_PROTO_TYPE_IP_COMP,
          RLE_PROTO_TYPE_SIGNAL_COMP, RLE_PROTO_TYPE_VLAN_COMP_WO_PTYPE_FIELD,
          RLE_PROTO_TYPE_SIGNAL_UNCOMP]
    · have homitted : ptype_is_omitted conf ptype = false := by
        simp only [ptype_is_omitted, hsigb, Bool.false_or]
        simpa using homit
      rw [homitted, hsigb]
      by_cases hcomp : conf.use_compressed_ptype = true
      · cases hc : rle_header_ptype_compression ptype with
        | some c =>
          have hhdr : alpdu_hdr conf ptype = [c] := by
            simp [alpdu_hdr, homitted, hcomp, hc]
          rw [hhdr]
          unfold rle_header_ptype_compression at hc
          split_ifs at hc with h1 h2 h3 h4 h5 h6 <;>
            first
            | (cases hc
               subst_vars
               simp [alpdu_extract, comp_alpdu_extract_sdu_frag, comp_code, homitted,
                 hsigb, hcomp, rle_header_ptype_compression,
                 rle_header_ptype_decompression, RLE_PROTO_TYPE_VLAN_COMP_WO_PTYPE_FIELD,
                 RLE_PROTO_TYPE_SIGNAL_UNCOMP, RLE_PROTO_TYPE_SIGNAL_COMP])
            | cases hc
        | none =>
          have hhdr : alpdu_hdr conf ptype = [0xff, ptype % 256, ptype / 256 % 256] := by
            simp [alpdu_hdr, homitted, hcomp, hc]
          rw [hhdr]
          have hpt2 : ptype % 256 + 256 * (ptype / 256 % 256) = ptype := by omega
          simp [alpdu_extract, comp_alpdu_extract_sdu_frag, comp_code, homitted, hsigb,
            hcomp, hc, hpt2, hsig2, RLE_PROTO_TYPE_VLAN_COMP_WO_PTYPE_FIELD,
            RLE_PROTO_TYPE_SIGNAL_UNCOMP, RLE_PROTO_TYPE_SIGNAL_COMP]
      · have hcompf : conf.use_compressed_ptype = false := by
          simpa using hcomp
        have hhdr : alpdu_hdr conf ptype = [ptype % 256, ptype / 256 % 256] := by
          simp [alpdu_hdr, homitted, hcompf]
        rw [hhdr]
        have hpt2 : ptype % 256 + 256 * (ptype / 256 % 256) = ptype := by omega
        simp [alpdu_extract, uncomp_alpdu_extract_sdu_frag, comp_code, homitted, hsigb,
          hcompf, hpt2, hsig2, RLE_PROTO_TYPE_VLAN_COMP_WO_PTYPE_FIELD,
          RLE_PROTO_TYPE_SIGNAL_UNCOMP, RLE_PROTO_TYPE_SIGNAL_COMP]

lemma take_getD_zero (l : List Nat) (k : Nat) (h1 : 1 ≤ k) (h2 : l ≠ []) :
    (l.take k).getD 0 0 = l.getD 0 0 := by
  cases l with
  | nil => simp at h2
  | cons a t => cases k with
    | zero => omega
    | succ m => rfl

lemma scan_zeros (conf : rle_config) (f k : Nat) (ctxs : Nat → rle_rcv_ctx) :
    fpdu_scan conf f ctxs (List.replicate k 0) = (ctxs, []) := by
  cases f with
  | zero => rfl
  | succ f =>
    cases k with
    | zero => rfl
    | succ k => simp [fpdu_scan, List.replicate]

/-- Scanning an FPDU that holds exactly one well-formed PPDU followed by
zero padding performs exactly the receiver step on that PPDU. -/
lemma fpdu_scan_one (conf : rle_config) (ctxs : Nat → rle_rcv_ctx)
    (ppdu : List Nat) (k : Nat)
    (h0 : ppdu.getD 0 0 ≠ 0)
    (hplen : scan_plen ppdu = ppdu.length)
    (hlen : 2 ≤ ppdu.length) :
    fpdu_scan conf (ppdu.length + k) ctxs (ppdu ++ List.replicate k 0)
      = rle_receiver_step conf ctxs ppdu := by
  cases ppdu with
  | nil => simp at hlen
  | cons b0 rest =>
    have hb0 : b0 ≠ 0 := by simpa using h0
    have hplen2 : scan_plen (b0 :: rest) = rest.length + 1 := by
      rw [hplen]; simp
    have hscan : scan_plen (b0 :: (rest ++ List.replicate k 0)) = scan_plen (b0 :: rest) := by
      cases rest with
      | nil => simp at hlen
      | cons b1 t => rfl
    have htake : (b0 :: (rest ++ List.replicate k 0)).take (rest.length + 1)
        = b0 :: rest := by
      have h2 : ((b0 :: rest) ++ List.replicate k 0).take (rest.length + 1)
          = b0 :: rest := List.take_left' (by simp)
      simpa using h2
    have hdrop : (b0 :: (rest ++ List.replicate k 0)).drop (rest.length + 1)
        = List.replicate k 0 := by
      have h2 : ((b0 :: rest) ++ List.replicate k 0).drop (rest.length + 1)
          = List.replicate k 0 := List.drop_left' (by simp)
      simpa using h2
    have hfuel : (b0 :: rest).length + k = rest.length + k + 1 := by
      simp [List.length_cons]; omega
    rw [hfuel]
    simp only [List.cons_append]
    unfold fpdu_scan
    rw [if_neg (by simpa using hb0)]
    simp only [hscan, hplen2, htake, hdrop, scan_zeros]
    simp

/-- Bit facts for the first byte of a COMP PPDU header. -/
lemma comp_b0_facts (lt pts L : Nat) (hlt : lt ≤ 3) (hpts : pts ≤ 1) (hL : L ≤ 2047) :
    (0x80 + 0x40 + lt * 16 + pts * 8 + L / 256) / 128 = 1 ∧
    (0x80 + 0x40 + lt * 16 + pts * 8 + L / 256) / 64 % 2 = 1 ∧
    (0x80 + 0x40 + lt * 16 + pts * 8 + L / 256) ≠ 0 ∧
    (0x80 + 0x40 + lt * 16 + pts * 8 + L / 256) % 8 * 256 + L % 256 = L ∧
    (0x80 + 0x40 + lt * 16 + pts * 8 + L / 256) / 8 % 2 = pts ∧
    (0x80 + 0x40 + lt * 16 + pts * 8 + L / 256) / 16 % 4 = lt := by
  omega

/-- Bit facts for the first byte of a START PPDU header. -/
lemma start_b0_facts (lt pts p : Nat) (hlt : lt ≤ 3) (hpts : pts ≤ 1) (hp : p ≤ 2047) :
    (0x80 + lt * 16 + pts * 8 + p / 256) / 128 = 1 ∧
    (0x80 + lt * 16 + pts * 8 + p / 256) / 64 % 2 = 0 ∧
    (0x80 + lt * 16 + pts * 8 + p / 256) ≠ 0 ∧
    (0x80 + lt * 16 + pts * 8 + p / 256) % 8 * 256 + p % 256 = p ∧
    (0x80 + lt * 16 + pts * 8 + p / 256) / 8 % 2 = pts ∧
    (0x80 + lt * 16 + pts * 8 + p / 256) / 16 % 4 = lt := by
  omega

/-- Bit facts for the trailing two bytes of a START PPDU header. -/
lemma start_b23_facts (fragid total u : Nat) (hf : fragid ≤ 7) (ht : total ≤ 4095)
    (hu : u ≤ 1) :
    (fragid * 32 + total / 128) / 32 = fragid ∧
    (fragid * 32 + total / 128) % 32 * 128 + (total % 128 * 2 + u) / 2 = total ∧
    (total % 128 * 2 + u) % 2 = u := by
  omega

/-- Bit facts for the first byte of a CONT PPDU header. -/
lemma cont_b0_facts (p fragid : Nat) (h32 : 32 ≤ p) (hp : p ≤ 2047) (hf : fragid ≤ 7) :
    p / 32 / 128 = 0 ∧ p / 32 / 64 % 2 = 0 ∧ p / 32 ≠ 0 ∧
    p / 32 % 64 * 32 + (p % 32 * 8 + fragid) / 8 = p ∧
    (p % 32 * 8 + fragid) % 8 = fragid := by
  omega

/-- Bit facts for the first byte of an END PPDU header. -/
lemma end_b0_facts (p fragid : Nat) (hp : p ≤ 2047) (hf : fragid ≤ 7) :
    (0x40 + p / 32) / 128 = 0 ∧ (0x40 + p / 32) / 64 % 2 = 1 ∧ (0x40 + p / 32) ≠ 0 ∧
    (0x40 + p / 32) % 64 * 32 + (p % 32 * 8 + fragid) / 8 = p ∧
    (p % 32 * 8 + fragid) % 8 = fragid := by
  omega

/-- The computed scan length of a COMP PPDU is its exact length. -/
lemma scan_plen_comp (lt pts : Nat) (alpdu0 : List Nat)
    (hlt : lt ≤ 3) (hpts : pts ≤ 1) (hL : alpdu0.length ≤ 2047) :
    scan_plen (ppdu_comp_hdr lt pts alpdu0.length ++ alpdu0)
      = (ppdu_comp_hdr lt pts alpdu0.length ++ alpdu0).length := by
  unfold scan_plen ppdu_comp_hdr
  simp only [List.cons_append, List.getD_cons_zero, List.getD_cons_succ,
    List.length_append, List.length_cons, List.length_nil]
  rw [if_neg (by omega), if_pos (by omega)]
  omega

/-- The computed scan length of a START PPDU is its exact length. -/
lemma scan_plen_start (lt pts fragid total u : Nat) (payload : List Nat)
    (hlt : lt ≤ 3) (hpts : pts ≤ 1) (hp : payload.length ≤ 2047) :
    scan_plen (ppdu_start_hdr lt pts payload.length fragid total u ++ payload)
      = (ppdu_start_hdr lt pts payload.length fragid total u ++ payload).length := by
  unfold scan_plen ppdu_start_hdr
  simp only [List.cons_append, List.getD_cons_zero, List.getD_cons_succ,
    List.length_append, List.length_cons, List.length_nil]
  rw [if_pos (by omega)]
  omega

/-- The computed scan length of a CONT PPDU is its exact length. -/
lemma scan_plen_cont (fragid : Nat) (payload : List Nat)
    (h32 : 32 ≤ payload.length) (hp : payload.length ≤ 2047) (hf : fragid ≤ 7) :
    scan_plen (ppdu_cont_hdr payload.length fragid ++ payload)
      = (ppdu_cont_hdr payload.length fragid ++ payload).length := by
  unfold scan_plen ppdu_cont_hdr
  simp only [List.cons_append, List.getD_cons_zero, List.getD_cons_succ,
    List.length_append, List.length_cons, List.length_nil]
  rw [if_neg (by omega), if_neg (by omega)]
  omega

/-- The computed scan length of an END PPDU is its exact length. -/
lemma scan_plen_end (fragid : Nat) (payload : List Nat)
    (hp : payload.length ≤ 2047) (hf : fragid ≤ 7) :
    scan_plen (ppdu_end_hdr payload.length fragid ++ payload)
      = (ppdu_end_hdr payload.length fragid ++ payload).length := by
  unfold scan_plen ppdu_end_hdr
  simp only [List.cons_append, List.getD_cons_zero, List.getD_cons_succ,
    List.length_append, List.length_cons, List.length_nil]
  rw [if_neg (by omega), if_neg (by omega)]
  omega

lemma lt_of_le (ptype : Nat) : lt_of ptype ≤ 3 := by
  unfold lt_of; split <;> simp

lemma pts_of_le (conf : rle_config) (ptype : Nat) : pts_of conf ptype ≤ 1 := by
  unfold pts_of; split <;> simp

/-- The suppressed bit of a COMP header encodes `ptype_is_omitted`. -/
lemma comp_hdr_suppressed_bit (conf : rle_config) (ptype L : Nat) (A : List Nat)
    (hL : L ≤ 2047) :
    ppdu_hdr_get_is_suppressed (ppdu_comp_hdr (lt_of ptype) (pts_of conf ptype) L ++ A)
      = ptype_is_omitted conf ptype := by
  obtain ⟨_, _, _, _, hb5, _⟩ :=
    comp_b0_facts (lt_of ptype) (pts_of conf ptype) L (lt_of_le ptype) (pts_of_le conf ptype) hL
  unfold ppdu_hdr_get_is_suppressed ppdu_comp_hdr
  simp only [List.cons_append, List.getD_cons_zero]
  rw [hb5]
  unfold pts_of
  cases homitted : ptype_is_omitted conf ptype <;> simp [homitted]

/-- The label-type bits of a COMP header encode the signal flag. -/
lemma comp_hdr_signal_bit (conf : rle_config) (ptype L : Nat) (A : List Nat)
    (hL : L ≤ 2047) :
    ppdu_hdr_get_is_signal (ppdu_comp_hdr (lt_of ptype) (pts_of conf ptype) L ++ A)
      = (ptype == RLE_PROTO_TYPE_SIGNAL_UNCOMP) := by
  obtain ⟨_, _, _, _, _, hb6⟩ :=
    comp_b0_facts (lt_of ptype) (pts_of conf ptype) L (lt_of_le ptype) (pts_of_le conf ptype) hL
  unfold ppdu_hdr_get_is_signal ppdu_comp_hdr
  simp only [List.cons_append, List.getD_cons_zero]
  rw [hb6]
  unfold lt_of
  cases hs : (ptype == RLE_PROTO_TYPE_SIGNAL_UNCOMP) <;> simp [hs]

/-- The suppressed bit of a START header encodes `ptype_is_omitted`. -/
lemma start_hdr_suppressed_bit (conf : rle_config) (ptype p fragid total u : Nat)
    (A : List Nat) (hp : p ≤ 2047) :
    ppdu_hdr_get_is_suppressed
        (ppdu_start_hdr (lt_of ptype) (pts_of conf ptype) p fragid total u ++ A)
      = ptype_is_omitted conf ptype := by
  obtain ⟨_, _, _, _, hb5, _⟩ :=
    start_b0_facts (lt_of ptype) (pts_of conf ptype) p (lt_of_le ptype) (pts_of_le conf ptype) hp
  unfold ppdu_hdr_get_is_suppressed ppdu_start_hdr
  simp only [List.cons_append, List.getD_cons_zero]
  rw [hb5]
  unfold pts_of
  cases homitted : ptype_is_omitted conf ptype <;> simp [homitted]

/-- The label-type bits of a START header encode the signal flag. -/
lemma start_hdr_signal_bit (conf : rle_config) (ptype p fragid total u : Nat)
    (A : List Nat) (hp : p ≤ 2047) :
    ppdu_hdr_get_is_signal
        (ppdu_start_hdr (lt_of ptype) (pts_of conf ptype) p fragid total u ++ A)
      = (ptype == RLE_PROTO_TYPE_SIGNAL_UNCOMP) := by
  obtain ⟨_, _, _, _, _, hb6⟩ :=
    start_b0_facts (lt_of ptype) (pts_of conf ptype) p (lt_of_le ptype) (pts_of_le conf ptype) hp
  unfold ppdu_hdr_get_is_signal ppdu_start_hdr
  simp only [List.cons_append, List.getD_cons_zero]
  rw [hb6]
  unfold lt_of
  cases hs : (ptype == RLE_PROTO_TYPE_SIGNAL_UNCOMP) <;> simp [hs]

/-- A Complete PPDU built from one ALPDU reassembles to exactly the SDU
bytes and protocol type that entered encapsulation. -/
lemma reassembly_comp_round (conf : rle_config) (ptype : Nat) (sdu_bytes : List Nat)
    (hval : valid_config conf = true) (hpt : ptype < 65536)
    (hnib : conf.allow_ptype_omission = true → conf.implicit_protocol_type = 0x30 →
      (ptype = 0x0800 → sdu_bytes ≠ [] ∧ sdu_bytes.getD 0 0 / 16 % 16 = 4) ∧
      (ptype = 0x86dd → sdu_bytes ≠ [] ∧ sdu_bytes.getD 0 0 / 16 % 16 = 6))
    (hL : (alpdu_hdr conf ptype ++ sdu_bytes).length ≤ 2047) :
    reassembly_comp_ppdu conf
        (ppdu_comp_hdr (lt_of ptype) (pts_of conf ptype)
          (alpdu_hdr conf ptype ++ sdu_bytes).length ++ (alpdu_hdr conf ptype ++ sdu_bytes))
      = some (sdu_bytes, ptype) := by
  obtain ⟨hex, hcp⟩ := alpdu_extract_round conf ptype sdu_bytes hval hpt hnib
  unfold reassembly_comp_ppdu
  have hfrag : comp_ppdu_extract_alpdu_frag
      (ppdu_comp_hdr (lt_of ptype) (pts_of conf ptype)
        (alpdu_hdr conf ptype ++ sdu_bytes).length ++ (alpdu_hdr conf ptype ++ sdu_bytes))
      = alpdu_hdr conf ptype ++ sdu_bytes := by
    simp [comp_ppdu_extract_alpdu_frag, ppdu_comp_hdr]
  rw [hfrag, comp_hdr_suppressed_bit conf ptype _ _ hL,
    comp_hdr_signal_bit conf ptype _ _ hL]
  simp only [hex]
  simp [hcp]

/-- Receiver dispatch of a Complete PPDU: the context map is unchanged
and the SDU is delivered. -/
lemma step_comp (conf : rle_config) (ctxs : Nat → rle_rcv_ctx) (ptype : Nat)
    (sdu_bytes : List Nat)
    (hval : valid_config conf = true) (hpt : ptype < 65536)
    (hnib : conf.allow_ptype_omission = true → conf.implicit_protocol_type = 0x30 →
      (ptype = 0x0800 → sdu_bytes ≠ [] ∧ sdu_bytes.getD 0 0 / 16 % 16 = 4) ∧
      (ptype = 0x86dd → sdu_bytes ≠ [] ∧ sdu_bytes.getD 0 0 / 16 % 16 = 6))
    (hL : (alpdu_hdr conf ptype ++ sdu_bytes).length ≤ 2047) :
    rle_receiver_step conf ctxs
        (ppdu_comp_hdr (lt_of ptype) (pts_of conf ptype)
          (alpdu_hdr conf ptype ++ sdu_bytes).length ++ (alpdu_hdr conf ptype ++ sdu_bytes))
      = (ctxs, [(sdu_bytes, ptype)]) := by
  obtain ⟨hb1, hb2, _, _, _, _⟩ :=
    comp_b0_facts (lt_of ptype) (pts_of conf ptype) (alpdu_hdr conf ptype ++ sdu_bytes).length
      (lt_of_le ptype) (pts_of_le conf ptype) hL
  unfold rle_receiver_step
  rw [show (ppdu_comp_hdr (lt_of ptype) (pts_of conf ptype)
      (alpdu_hdr conf ptype ++ sdu_bytes).length
      ++ (alpdu_hdr conf ptype ++ sdu_bytes)).getD 0 0
      = 0x80 + 0x40 + lt_of ptype * 16 + pts_of conf ptype * 8
        + (alpdu_hdr conf ptype ++ sdu_bytes).length / 256 by
    simp [ppdu_comp_hdr]]
  rw [if_pos ⟨hb1, hb2⟩, reassembly_comp_round conf ptype sdu_bytes hval hpt hnib hL]

lemma alpdu_hdr_len_le (conf : rle_config) (ptype : Nat) :
    (alpdu_hdr conf ptype).length ≤ 3 := by
  unfold alpdu_hdr
  split
  · simp
  · split
    · split <;> simp
    · simp

lemma alpdu_trailer_length (conf : rle_config) (seq : Nat) (A : List Nat) :
    (alpdu_trailer conf seq A).length = if conf.allow_alpdu_crc then 4 else 1 := by
  unfold alpdu_trailer crc32_bytes
  split <;> simp

/-- The first fragment cut from the full ALPDU splits into the ALPDU
header and a prefix of the SDU. -/
lemma full_take_p0 (conf : rle_config) (ptype : Nat) (sdu_bytes tr : List Nat) (p0 : Nat)
    (hge : (alpdu_hdr conf ptype).length ≤ p0)
    (hle : p0 ≤ (alpdu_hdr conf ptype ++ sdu_bytes).length) :
    ((alpdu_hdr conf ptype ++ sdu_bytes) ++ tr).take p0
      = alpdu_hdr conf ptype ++ sdu_bytes.take (p0 - (alpdu_hdr conf ptype).length) := by
  rw [List.take_append_of_le_length hle, List.take_append_eq_append_take,
    List.take_of_length_le hge]

/-- The bytes remaining after the first fragment are the SDU suffix
followed by the trailer. -/
lemma full_drop_p0 (conf : rle_config) (ptype : Nat) (sdu_bytes tr : List Nat) (p0 : Nat)
    (hge : (alpdu_hdr conf ptype).length ≤ p0)
    (hle : p0 ≤ (alpdu_hdr conf ptype ++ sdu_bytes).length) :
    ((alpdu_hdr conf ptype ++ sdu_bytes) ++ tr).drop p0
      = sdu_bytes.drop (p0 - (alpdu_hdr conf ptype).length) ++ tr := by
  rw [List.drop_append_eq_append_drop, List.drop_append_eq_append_drop,
    List.drop_of_length_le hge, List.nil_append]
  have h1 : p0 - (alpdu_hdr conf ptype ++ sdu_bytes).length = 0 := by
    simp only [List.length_append] at hle ⊢
    omega
  rw [h1, List.drop_zero]

/-- A START PPDU built from the first fragment of the full ALPDU
initialises the reassembly context exactly as the round trip needs. -/
lemma reassembly_start_round (conf : rle_config) (ptype fid F p0 u : Nat)
    (sdu_bytes A tr full : List Nat) (c : rle_rcv_ctx)
    (hA : A = alpdu_hdr conf ptype ++ sdu_bytes)
    (htr : tr = alpdu_trailer conf 0 A)
    (hfull : full = A ++ tr)
    (hp0 : p0 = min (F - 4) (min 2047 (full.length - tr.length)))
    (hu : u = if conf.allow_alpdu_crc then 1 else 0)
    (hfree : c.free = true)
    (hval : valid_config conf = true) (hpt : ptype < 65536)
    (hnib : conf.allow_ptype_omission = true → conf.implicit_protocol_type = 0x30 →
      (ptype = 0x0800 → sdu_bytes ≠ [] ∧ sdu_bytes.getD 0 0 / 16 % 16 = 4) ∧
      (ptype = 0x86dd → sdu_bytes ≠ [] ∧ sdu_bytes.getD 0 0 / 16 % 16 = 6))
    (hF : 38 ≤ F) (hfid : fid ≤ 7) (hS : sdu_bytes.length ≤ 4088)
    (hfrag : ¬(A.length + 2 ≤ F ∧ A.length ≤ 2047)) :
    reassembly_start_ppdu conf c
        (ppdu_start_hdr (lt_of ptype) (pts_of conf ptype) p0 fid full.length u
          ++ full.take p0)
      = { c with
            current_counter :=
              (ppdu_start_hdr (lt_of ptype) (pts_of conf ptype) p0 fid full.length u
                ++ full.take p0).length,
            ctr_in := c.ctr_in + 1,
            ctr_bytes_in := c.ctr_bytes_in +
              (ppdu_start_hdr (lt_of ptype) (pts_of conf ptype) p0 fid full.length u
                ++ full.take p0).length,
            free := false,
            use_crc := conf.allow_alpdu_crc,
            sdu_total := sdu_bytes.length,
            collected := sdu_bytes.take (p0 - (alpdu_hdr conf ptype).length),
            r_ptype := ptype,
            comp_ptype := comp_code conf ptype } := by
  have hH := alpdu_hdr_len_le conf ptype
  have hTlen : tr.length = if conf.allow_alpdu_crc then 4 else 1 := by
    rw [htr]; exact alpdu_trailer_length conf 0 A
  have hT14 : 1 ≤ tr.length ∧ tr.length ≤ 4 := by
    rw [hTlen]; split <;> simp
  have hAlen : A.length = (alpdu_hdr conf ptype).length + sdu_bytes.length := by
    rw [hA]; simp
  have hfulllen : full.length = A.length + tr.length := by
    rw [hfull]; simp
  have hL0 : 37 ≤ A.length := by
    rcases not_and_or.mp hfrag with h | h <;> omega
  have hp0ge : 34 ≤ p0 := by omega
  have hp0le : p0 ≤ A.length := by omega
  have hp02047 : p0 ≤ 2047 := by omega
  have hfull4095 : full.length ≤ 4095 := by omega
  have hu1 : u ≤ 1 := by rw [hu]; split <;> simp
  obtain ⟨hd2, hd3, hd4⟩ := start_b23_facts fid full.length u hfid hfull4095 hu1
  have htake := full_take_p0 conf ptype sdu_bytes tr p0 (by omega) (by rw [← hA]; omega)
  rw [← hA] at htake
  have hcrcbit : ((full.length % 128 * 2 + u) % 2 == 1) = conf.allow_alpdu_crc := by
    rw [hd4, hu]
    cases hc : conf.allow_alpdu_crc <;> simp [hc]
  -- the extraction of the first fragment
  have hnib2 : conf.allow_ptype_omission = true → conf.implicit_protocol_type = 0x30 →
      (ptype = 0x0800 → sdu_bytes.take (p0 - (alpdu_hdr conf ptype).length) ≠ [] ∧
        (sdu_bytes.take (p0 - (alpdu_hdr conf ptype).length)).getD 0 0 / 16 % 16 = 4) ∧
      (ptype = 0x86dd → sdu_bytes.take (p0 - (alpdu_hdr conf ptype).length) ≠ [] ∧
        (sdu_bytes.take (p0 - (alpdu_hdr conf ptype).length)).getD 0 0 / 16 % 16 = 6) := by
    intro ho h30
    obtain ⟨h4, h6⟩ := hnib ho h30
    refine ⟨fun hp4 => ?_, fun hp6 => ?_⟩
    · obtain ⟨hne, hnb⟩ := h4 hp4
      constructor
      · simp only [ne_eq, List.take_eq_nil_iff]
        push_neg
        exact ⟨by omega, hne⟩
      · rw [take_getD_zero sdu_bytes _ (by omega) hne]
        exact hnb
    · obtain ⟨hne, hnb⟩ := h6 hp6
      constructor
      · simp only [ne_eq, List.take_eq_nil_iff]
        push_neg
        exact ⟨by omega, hne⟩
      · rw [take_getD_zero sdu_bytes _ (by omega) hne]
        exact hnb
  obtain ⟨hex, hcp⟩ := alpdu_extract_round conf ptype
    (sdu_bytes.take (p0 - (alpdu_hdr conf ptype).length)) hval hpt hnib2
  -- now unfold the START handler
  unfold reassembly_start_ppdu
  rw [if_neg (by simp [hfree])]
  unfold start_ppdu_extract_alpdu_frag
  rw [show (ppdu_start_hdr (lt_of ptype) (pts_of conf ptype) p0 fid full.length u
      ++ full.take p0).drop 4 = full.take p0 by simp [ppdu_start_hdr]]
  rw [show (ppdu_start_hdr (lt_of ptype) (pts_of conf ptype) p0 fid full.length u
      ++ full.take p0).getD 2 0 = fid * 32 + full.length / 128 by simp [ppdu_start_hdr]]
  rw [show (ppdu_start_hdr (lt_of ptype) (pts_of conf ptype) p0 fid full.length u
      ++ full.take p0).getD 3 0 = full.length % 128 * 2 + u by simp [ppdu_start_hdr]]
  rw [start_hdr_suppressed_bit conf ptype p0 fid full.length u _ hp02047,
    start_hdr_signal_bit conf ptype p0 fid full.length u _ hp02047]
  rw [show List.take p0 full
      = alpdu_hdr conf ptype ++ List.take (p0 - (alpdu_hdr conf ptype).length) sdu_bytes by
    rw [hfull]; exact htake]
  simp only [hex, hd3, hcrcbit]
  have hfraglen : (sdu_bytes.take (p0 - (alpdu_hdr conf ptype).length)).length
      = p0 - (alpdu_hdr conf ptype).length := by
    simp only [List.length_take]
    omega
  rw [if_neg (by rw [hfraglen]; omega)]
  rw [show (if conf.allow_alpdu_crc then 4 else 1) = tr.length from hTlen.symm]
  rw [if_neg (by omega)]
  rw [if_neg (by rw [hfraglen]; omega)]
  have hst : full.length - (alpdu_hdr conf ptype).length - tr.length
      = sdu_bytes.length := by omega
  rw [hst]

lemma comp_code_ne_vlan (conf : rle_config) (ptype : Nat)
    (hval : valid_config conf = true) :
    comp_code conf ptype ≠ RLE_PROTO_TYPE_VLAN_COMP_WO_PTYPE_FIELD := by
  have himpl : valid_implicit_ptype conf.implicit_protocol_type = true := by
    simp only [valid_config, Bool.and_eq_true] at hval
    exact hval.1.1.2
  unfold comp_code RLE_PROTO_TYPE_VLAN_COMP_WO_PTYPE_FIELD
  split
  · simp [RLE_PROTO_TYPE_SIGNAL_COMP]
  · split
    · intro hh
      rw [hh] at himpl
      simp [valid_implicit_ptype] at himpl
    · split
      · rcases hcc : rle_header_ptype_compression ptype with _ | cpt
        · simp [hcc]
        · simp only [hcc]
          unfold rle_header_ptype_compression at hcc
          split_ifs at hcc <;> (cases hcc; decide)
      · decide

/-- A CONT PPDU carrying the next SDU slice appends it to the reassembly
buffer. -/
lemma reassembly_cont_round (c : rle_rcv_ctx) (fid k p : Nat) (sdu_bytes : List Nat)
    (hfree : c.free = false)
    (htotal : c.sdu_total = sdu_bytes.length)
    (hcoll : c.collected = sdu_bytes.take k)
    (hk : k ≤ sdu_bytes.length)
    (hp : k + p ≤ sdu_bytes.length) :
    reassembly_cont_ppdu c (ppdu_cont_hdr p fid ++ (sdu_bytes.drop k).take p)
      = { c with
            current_counter := c.current_counter
              + (ppdu_cont_hdr p fid ++ (sdu_bytes.drop k).take p).length,
            ctr_bytes_in := c.ctr_bytes_in
              + (ppdu_cont_hdr p fid ++ (sdu_bytes.drop k).take p).length,
            collected := sdu_bytes.take (k + p) } := by
  have hfraglen : ((sdu_bytes.drop k).take p).length = p := by
    simp only [List.length_take, List.length_drop]
    omega
  unfold reassembly_cont_ppdu
  rw [if_neg (by simp [hfree])]
  unfold cont_end_ppdu_extract_alpdu_frag
  rw [show (ppdu_cont_hdr p fid ++ (sdu_bytes.drop k).take p).drop 2
      = (sdu_bytes.drop k).take p by simp [ppdu_cont_hdr]]
  rw [if_neg (by
    simp only [hcoll, htotal, hfraglen, List.length_take, not_lt]
    omega)]
  have happ : sdu_bytes.take k ++ (sdu_bytes.drop k).take p = sdu_bytes.take (k + p) :=
    (List.take_add sdu_bytes k p).symm
  simp only [hcoll, happ]

/-- The END PPDU carrying the SDU remainder plus the trailer delivers
the complete SDU with its original protocol type. -/
lemma reassembly_end_round (conf : rle_config) (c : rle_rcv_ctx)
    (fid k ptype : Nat) (sdu_bytes tr : List Nat)
    (hfree : c.free = false)
    (htotal : c.sdu_total = sdu_bytes.length)
    (hcoll : c.collected = sdu_bytes.take k)
    (hk : k ≤ sdu_bytes.length)
    (hrp : c.r_ptype = ptype)
    (hcpne : c.comp_ptype ≠ RLE_PROTO_TYPE_VLAN_COMP_WO_PTYPE_FIELD)
    (hucrc : c.use_crc = conf.allow_alpdu_crc)
    (hseq : c.seq_init = false)
    (htr : tr = alpdu_trailer conf 0 (alpdu_hdr conf ptype ++ sdu_bytes)) :
    (reassembly_end_ppdu conf c
        (ppdu_end_hdr (sdu_bytes.drop k ++ tr).length fid
          ++ (sdu_bytes.drop k ++ tr))).2
      = some (sdu_bytes, ptype) := by
  have hTlen : tr.length = if conf.allow_alpdu_crc then 4 else 1 := by
    rw [htr]; exact alpdu_trailer_length conf 0 _
  have hT14 : 1 ≤ tr.length ∧ tr.length ≤ 4 := by
    rw [hTlen]; split <;> simp
  have hrest : (sdu_bytes.drop k ++ tr).length = sdu_bytes.length - k + tr.length := by
    simp only [List.length_append, List.length_drop]
  unfold reassembly_end_ppdu
  rw [if_neg (by simp [hfree])]
  unfold cont_end_ppdu_extract_alpdu_frag
  rw [show (ppdu_end_hdr (sdu_bytes.drop k ++ tr).length fid
      ++ (sdu_bytes.drop k ++ tr)).drop 2 = sdu_bytes.drop k ++ tr by
    simp [ppdu_end_hdr]]
  rw [show (if c.use_crc then 4 else 1) = tr.length by rw [hucrc, hTlen]]
  rw [if_neg (by omega)]
  have hsf : (sdu_bytes.drop k ++ tr).take ((sdu_bytes.drop k ++ tr).length - tr.length)
      = sdu_bytes.drop k := by
    rw [show (sdu_bytes.drop k ++ tr).length - tr.length = (sdu_bytes.drop k).length by
      simp only [List.length_append]; omega]
    exact List.take_left' rfl
  have htrl : (sdu_bytes.drop k ++ tr).drop ((sdu_bytes.drop k ++ tr).length - tr.length)
      = tr := by
    rw [show (sdu_bytes.drop k ++ tr).length - tr.length = (sdu_bytes.drop k).length by
      simp only [List.length_append]; omega]
    exact List.drop_left' rfl
  rw [hsf, htrl]
  rw [if_neg (by
    simp only [hcoll, htotal, List.length_take, List.length_drop, not_lt]
    omega)]
  rw [if_neg (by
    simp only [hcoll, htotal, List.length_append, List.length_take, List.length_drop,
      not_lt]
    omega)]
  have hall : sdu_bytes.take k ++ sdu_bytes.drop k = sdu_bytes :=
    List.take_append_drop k sdu_bytes
  simp only [hcoll, hall]
  rw [if_pos hcpne]
  rw [hrp, hucrc, hseq]
  unfold check_alpdu_trailer
  cases hc : conf.allow_alpdu_crc with
  | true =>
    rw [if_pos rfl]
    rw [if_pos (by rw [htr]; simp [alpdu_trailer, hc])]
  | false =>
    rw [if_neg (by simp)]
    have htr0 : tr = [0] := by
      rw [htr]; simp [alpdu_trailer, hc]
    rw [htr0]
    simp

/-- Receiver dispatch of a START PPDU. -/
lemma step_start (conf : rle_config) (ctxs : Nat → rle_rcv_ctx) (ptype fid p0 total u : Nat)
    (payload : List Nat) (hp0 : p0 ≤ 2047) (hfid : fid ≤ 7) (htot : total ≤ 4095)
    (hu : u ≤ 1) :
    rle_receiver_step conf ctxs
        (ppdu_start_hdr (lt_of ptype) (pts_of conf ptype) p0 fid total u ++ payload)
      = (upd_ctx ctxs fid (reassembly_start_ppdu conf (ctxs fid)
          (ppdu_start_hdr (lt_of ptype) (pts_of conf ptype) p0 fid total u ++ payload)),
         []) := by
  obtain ⟨hb1, hb2, _, _, _, _⟩ :=
    start_b0_facts (lt_of ptype) (pts_of conf ptype) p0 (lt_of_le ptype)
      (pts_of_le conf ptype) hp0
  obtain ⟨hd2, _, _⟩ := start_b23_facts fid total u hfid htot hu
  unfold rle_receiver_step
  rw [show (ppdu_start_hdr (lt_of ptype) (pts_of conf ptype) p0 fid total u
      ++ payload).getD 0 0
      = 0x80 + lt_of ptype * 16 + pts_of conf ptype * 8 + p0 / 256 by
    simp [ppdu_start_hdr]]
  rw [if_neg (by omega), if_pos hb1]
  rw [show rle_start_ppdu_hdr_get_frag_id
      (ppdu_start_hdr (lt_of ptype) (pts_of conf ptype) p0 fid total u ++ payload)
      = fid by
    unfold rle_start_ppdu_hdr_get_frag_id
    rw [show (ppdu_start_hdr (lt_of ptype) (pts_of conf ptype) p0 fid total u
        ++ payload).getD 2 0 = fid * 32 + total / 128 by simp [ppdu_start_hdr]]
    exact hd2]

/-- Receiver dispatch of a CONT PPDU. -/
lemma step_cont (conf : rle_config) (ctxs : Nat → rle_rcv_ctx) (fid p : Nat)
    (payload : List Nat) (hp32 : 32 ≤ p) (hp : p ≤ 2047) (hf : fid ≤ 7) :
    rle_receiver_step conf ctxs (ppdu_cont_hdr p fid ++ payload)
      = (upd_ctx ctxs fid (reassembly_cont_ppdu (ctxs fid)
          (ppdu_cont_hdr p fid ++ payload)), []) := by
  obtain ⟨hb1, hb2, _, _, hb5⟩ := cont_b0_facts p fid hp32 hp hf
  unfold rle_receiver_step
  rw [show (ppdu_cont_hdr p fid ++ payload).getD 0 0 = p / 32 by simp [ppdu_cont_hdr]]
  rw [if_neg (by omega), if_neg (by omega), if_pos (by omega)]
  rw [show rle_cont_end_ppdu_hdr_get_frag_id (ppdu_cont_hdr p fid ++ payload) = fid by
    unfold rle_cont_end_ppdu_hdr_get_frag_id
    rw [show (ppdu_cont_hdr p fid ++ payload).getD 1 0 = p % 32 * 8 + fid by
      simp [ppdu_cont_hdr]]
    exact hb5]

/-- Receiver dispatch of an END PPDU. -/
lemma step_end (conf : rle_config) (ctxs : Nat → rle_rcv_ctx) (fid : Nat)
    (payload : List Nat) (hp : payload.length ≤ 2047) (hf : fid ≤ 7) :
    rle_receiver_step conf ctxs (ppdu_end_hdr payload.length fid ++ payload)
      = (upd_ctx ctxs fid (reassembly_end_ppdu conf (ctxs fid)
          (ppdu_end_hdr payload.length fid ++ payload)).1,
         (reassembly_end_ppdu conf (ctxs fid)
          (ppdu_end_hdr payload.length fid ++ payload)).2.toList) := by
  obtain ⟨hb1, hb2, _, _, hb5⟩ := end_b0_facts payload.length fid hp hf
  unfold rle_receiver_step
  rw [show (ppdu_end_hdr payload.length fid ++ payload).getD 0 0
      = 0x40 + payload.length / 32 by simp [ppdu_end_hdr]]
  rw [if_neg (by omega), if_neg (by omega), if_neg (by omega)]
  rw [show rle_cont_end_ppdu_hdr_get_frag_id (ppdu_end_hdr payload.length fid ++ payload)
      = fid by
    unfold rle_cont_end_ppdu_hdr_get_frag_id
    rw [show (ppdu_end_hdr payload.length fid ++ payload).getD 1 0
        = payload.length % 32 * 8 + fid by simp [ppdu_end_hdr]]
    exact hb5]

lemma pack_len (p : List Nat) (F : Nat) :
    (p ++ List.replicate (F - p.length) 0).length = p.length + (F - p.length) := by
  rw [List.length_append, List.length_replicate]

/-- Decapsulating the FPDU stream that carries the CONT/END fragments of
an in-progress ALPDU delivers exactly the original SDU. -/
lemma decap_frag_stream (conf : rle_config) (ptype fid F : Nat)
    (sdu_bytes tr : List Nat)
    (htr : tr = alpdu_trailer conf 0 (alpdu_hdr conf ptype ++ sdu_bytes))
    (hF : 38 ≤ F) (hfid : fid ≤ 7)
    (hval : valid_config conf = true) :
    ∀ fuel k (ctxs : Nat → rle_rcv_ctx),
      k ≤ sdu_bytes.length →
      sdu_bytes.length - k + tr.length ≤ fuel →
      (ctxs fid).free = false →
      (ctxs fid).sdu_total = sdu_bytes.length →
      (ctxs fid).collected = sdu_bytes.take k →
      (ctxs fid).r_ptype = ptype →
      (ctxs fid).comp_ptype = comp_code conf ptype →
      (ctxs fid).use_crc = conf.allow_alpdu_crc →
      (ctxs fid).seq_init = false →
      (rle_decapsulate conf ctxs
          (pack_fpdus F (frag_rest F fid tr.length fuel (sdu_bytes.drop k ++ tr)))).2
        = [(sdu_bytes, ptype)] := by
  have hTlen : tr.length = if conf.allow_alpdu_crc then 4 else 1 := by
    rw [htr]; exact alpdu_trailer_length conf 0 _
  have hT14 : 1 ≤ tr.length ∧ tr.length ≤ 4 := by
    rw [hTlen]; split <;> simp
  intro fuel
  induction fuel with
  | zero =>
    intro k ctxs hk hfuel _ _ _ _ _ _ _
    omega
  | succ fuel ih =>
    intro k ctxs hk hfuel hfree htotal hcoll hrp hcp hucrc hseq
    have hrestlen : (sdu_bytes.drop k ++ tr).length = sdu_bytes.length - k + tr.length := by
      simp only [List.length_append, List.length_drop]
    unfold frag_rest
    by_cases hend : (sdu_bytes.drop k ++ tr).length ≤ min (F - 2) 2047
    · rw [if_pos hend]
      -- one END FPDU
      unfold pack_fpdus rle_decapsulate
      simp only [List.map_cons, List.map_nil]
      unfold rle_decapsulate
      have hppdu_len : (ppdu_end_hdr (sdu_bytes.drop k ++ tr).length fid
          ++ (sdu_bytes.drop k ++ tr)).length
          = 2 + (sdu_bytes.drop k ++ tr).length := by
        simp [ppdu_end_hdr]
        try omega
      have hplen2047 : (sdu_bytes.drop k ++ tr).length ≤ 2047 := by omega
      obtain ⟨_, _, hb3, _, _⟩ := end_b0_facts (sdu_bytes.drop k ++ tr).length fid
        hplen2047 hfid
      have hgetd : (ppdu_end_hdr (sdu_bytes.drop k ++ tr).length fid
          ++ (sdu_bytes.drop k ++ tr)).getD 0 0
          = 0x40 + (sdu_bytes.drop k ++ tr).length / 32 := by
        simp [ppdu_end_hdr]
      rw [pack_len]
      rw [fpdu_scan_one conf ctxs _ _
        (by rw [hgetd]; exact hb3)
        (scan_plen_end fid (sdu_bytes.drop k ++ tr) hplen2047 hfid)
        (by rw [hppdu_len]; omega)]
      rw [step_end conf ctxs fid (sdu_bytes.drop k ++ tr) hplen2047 hfid]
      rw [reassembly_end_round conf (ctxs fid) fid k ptype sdu_bytes tr hfree htotal
        hcoll hk hrp (by rw [hcp]; exact comp_code_ne_vlan conf ptype hval) hucrc hseq htr]
      simp
    · rw [if_neg hend]
      -- one CONT FPDU, then recurse
      have hp33 : 33 ≤ min (F - 2) (min 2047 ((sdu_bytes.drop k ++ tr).length - tr.length)) := by
        omega
      have hp2047 : min (F - 2) (min 2047 ((sdu_bytes.drop k ++ tr).length - tr.length))
          ≤ 2047 := by omega
      have hpSk : min (F - 2) (min 2047 ((sdu_bytes.drop k ++ tr).length - tr.length))
          ≤ sdu_bytes.length - k := by omega
      set p := min (F - 2) (min 2047 ((sdu_bytes.drop k ++ tr).length - tr.length)) with hpdef
      have htakep : (sdu_bytes.drop k ++ tr).take p = (sdu_bytes.drop k).take p := by
        apply List.take_append_of_le_length
        simp only [List.length_drop]
        omega
      have hdropp : (sdu_bytes.drop k ++ tr).drop p = sdu_bytes.drop (k + p) ++ tr := by
        rw [List.drop_append_of_le_length (by simp only [List.length_drop]; omega)]
        rw [List.drop_drop]
        try rw [Nat.add_comm p k]
      have htklen : ((sdu_bytes.drop k ++ tr).take p).length = p := by
        simp only [List.length_take]
        omega
      unfold pack_fpdus rle_decapsulate
      simp only [List.map_cons]
      have hppdu_len : (ppdu_cont_hdr p fid ++ (sdu_bytes.drop k ++ tr).take p).length
          = 2 + p := by
        simp [ppdu_cont_hdr, htklen]
        try omega
      obtain ⟨_, _, hb3, _, _⟩ := cont_b0_facts p fid (by omega) hp2047 hfid
      have hgetd : (ppdu_cont_hdr p fid ++ (sdu_bytes.drop k ++ tr).take p).getD 0 0
          = p / 32 := by
        simp [ppdu_cont_hdr]
      have hscanlen : scan_plen (ppdu_cont_hdr p fid ++ (sdu_bytes.drop k ++ tr).take p)
          = (ppdu_cont_hdr p fid ++ (sdu_bytes.drop k ++ tr).take p).length := by
        have h1 := scan_plen_cont fid ((sdu_bytes.drop k ++ tr).take p)
          (by omega) (by omega) hfid
        rw [htklen] at h1
        exact h1
      rw [pack_len]
      rw [fpdu_scan_one conf ctxs _ _
        (by rw [hgetd]; exact hb3)
        hscanlen
        (by rw [hppdu_len]; omega)]
      rw [htakep]
      rw [step_cont conf ctxs fid p ((sdu_bytes.drop k).take p) (by omega) hp2047 hfid]
      rw [reassembly_cont_round (ctxs fid) fid k p sdu_bytes hfree htotal hcoll hk
        (by omega)]
      rw [← htakep, hdropp]
      have hres := ih (k + p) (upd_ctx ctxs fid
        { ctxs fid with
            current_counter := (ctxs fid).current_counter
              + (ppdu_cont_hdr p fid ++ (sdu_bytes.drop k).take p).length,
            ctr_bytes_in := (ctxs fid).ctr_bytes_in
              + (ppdu_cont_hdr p fid ++ (sdu_bytes.drop k).take p).length,
            collected := sdu_bytes.take (k + p) })
        (by omega) (by omega)
        (by simp [upd_ctx, hfree]) (by simp [upd_ctx, htotal])
        (by simp [upd_ctx]) (by simp [upd_ctx, hrp]) (by simp [upd_ctx, hcp])
        (by simp [upd_ctx, hucrc]) (by simp [upd_ctx, hseq])
      rw [← htakep] at hres
      simpa using hres

set_option maxHeartbeats 3200000 in
/-- The full transmit-and-receive round trip on destructured SDU
fields: every FPDU of the stream is decapsulated in order and exactly
the original SDU comes out. -/
lemma rle_round_trip (conf : rle_config) (bytes : List Nat) (ptype fragid F : Nat)
    (hval : valid_config conf = true)
    (hlen : bytes.length ≤ 4088)
    (hpt : ptype < 65536)
    (hfid : fragid ≤ 7)
    (hF : 38 ≤ F)
    (hnib : conf.allow_ptype_omission = true → conf.implicit_protocol_type = 0x30 →
      (ptype = 0x0800 → bytes ≠ [] ∧ bytes.getD 0 0 / 16 % 16 = 4) ∧
      (ptype = 0x86dd → bytes ≠ [] ∧ bytes.getD 0 0 / 16 % 16 = 6)) :
    (rle_decapsulate conf (fun _ => init_rcv_ctx)
      (pack_fpdus F (transmit_ppdus conf bytes ptype fragid F))).2 = [(bytes, ptype)] := by
  by_cases hcomp : (alpdu_hdr conf ptype ++ bytes).length + 2 ≤ F ∧
      (alpdu_hdr conf ptype ++ bytes).length ≤ 2047
  · -- the ALPDU leaves as a single Complete PPDU
    have htp : transmit_ppdus conf bytes ptype fragid F
        = [ppdu_comp_hdr (lt_of ptype) (pts_of conf ptype)
            (alpdu_hdr conf ptype ++ bytes).length ++ (alpdu_hdr conf ptype ++ bytes)] := by
      simp only [transmit_ppdus]
      rw [if_pos hcomp]
    rw [htp]
    obtain ⟨_, _, hb3, _, _, _⟩ :=
      comp_b0_facts (lt_of ptype) (pts_of conf ptype) (alpdu_hdr conf ptype ++ bytes).length
        (lt_of_le ptype) (pts_of_le conf ptype) hcomp.2
    have hgetd : (ppdu_comp_hdr (lt_of ptype) (pts_of conf ptype)
        (alpdu_hdr conf ptype ++ bytes).length ++ (alpdu_hdr conf ptype ++ bytes)).getD 0 0
        = 0x80 + 0x40 + lt_of ptype * 16 + pts_of conf ptype * 8
          + (alpdu_hdr conf ptype ++ bytes).length / 256 := by
      simp [ppdu_comp_hdr]
    simp only [pack_fpdus, List.map_cons, List.map_nil, rle_decapsulate]
    rw [pack_len]
    rw [fpdu_scan_one conf _ _ _
      (by rw [hgetd]; exact hb3)
      (scan_plen_comp (lt_of ptype) (pts_of conf ptype) (alpdu_hdr conf ptype ++ bytes)
        (lt_of_le ptype) (pts_of_le conf ptype) hcomp.2)
      (by simp [ppdu_comp_hdr])]
    rw [step_comp conf _ ptype bytes hval hpt hnib hcomp.2]
    simp
  · -- the ALPDU is fragmented: START then CONT/END
    have htp : transmit_ppdus conf bytes ptype fragid F
        = (ppdu_start_hdr (lt_of ptype) (pts_of conf ptype)
             (min (F - 4) (min 2047
               (((alpdu_hdr conf ptype ++ bytes)
                  ++ alpdu_trailer conf 0 (alpdu_hdr conf ptype ++ bytes)).length
                 - (alpdu_trailer conf 0 (alpdu_hdr conf ptype ++ bytes)).length)))
             fragid
             ((alpdu_hdr conf ptype ++ bytes)
                ++ alpdu_trailer conf 0 (alpdu_hdr conf ptype ++ bytes)).length
             (if conf.allow_alpdu_crc then 1 else 0)
           ++ ((alpdu_hdr conf ptype ++ bytes)
                ++ alpdu_trailer conf 0 (alpdu_hdr conf ptype ++ bytes)).take
               (min (F - 4) (min 2047
                 (((alpdu_hdr conf ptype ++ bytes)
                    ++ alpdu_trailer conf 0 (alpdu_hdr conf ptype ++ bytes)).length
                   - (alpdu_trailer conf 0 (alpdu_hdr conf ptype ++ bytes)).length))))
          :: frag_rest F fragid
               (alpdu_trailer conf 0 (alpdu_hdr conf ptype ++ bytes)).length
               (((alpdu_hdr conf ptype ++ bytes)
                  ++ alpdu_trailer conf 0 (alpdu_hdr conf ptype ++ bytes)).drop
                 (min (F - 4) (min 2047
                   (((alpdu_hdr conf ptype ++ bytes)
                      ++ alpdu_trailer conf 0 (alpdu_hdr conf ptype ++ bytes)).length
                     - (alpdu_trailer conf 0 (alpdu_hdr conf ptype ++ bytes)).length)))).length
               (((alpdu_hdr conf ptype ++ bytes)
                  ++ alpdu_trailer conf 0 (alpdu_hdr conf ptype ++ bytes)).drop
                 (min (F - 4) (min 2047
                   (((alpdu_hdr conf ptype ++ bytes)
                      ++ alpdu_trailer conf 0 (alpdu_hdr conf ptype ++ bytes)).length
                     - (alpdu_trailer conf 0 (alpdu_hdr conf ptype ++ bytes)).length)))) := by
      simp only [transmit_ppdus]
      rw [if_neg hcomp]
    rw [htp]
    -- abbreviations via local facts
    have hH := alpdu_hdr_len_le conf ptype
    have hTlen : (alpdu_trailer conf 0 (alpdu_hdr conf ptype ++ bytes)).length
        = if conf.allow_alpdu_crc then 4 else 1 := alpdu_trailer_length conf 0 _
    have hT14 : 1 ≤ (alpdu_trailer conf 0 (alpdu_hdr conf ptype ++ bytes)).length ∧
        (alpdu_trailer conf 0 (alpdu_hdr conf ptype ++ bytes)).length ≤ 4 := by
      rw [hTlen]; split <;> simp
    have hAlen : (alpdu_hdr conf ptype ++ bytes).length
        = (alpdu_hdr conf ptype).length + bytes.length := by simp
    have hfulllen : ((alpdu_hdr conf ptype ++ bytes)
        ++ alpdu_trailer conf 0 (alpdu_hdr conf ptype ++ bytes)).length
        = (alpdu_hdr conf ptype ++ bytes).length
          + (alpdu_trailer conf 0 (alpdu_hdr conf ptype ++ bytes)).length := by
      simp
      try omega
    have hL0 : 37 ≤ (alpdu_hdr conf ptype ++ bytes).length := by
      rcases not_and_or.mp hcomp with h | h <;> omega
    have hp0ge : 34 ≤ min (F - 4) (min 2047
        (((alpdu_hdr conf ptype ++ bytes)
           ++ alpdu_trailer conf 0 (alpdu_hdr conf ptype ++ bytes)).length
          - (alpdu_trailer conf 0 (alpdu_hdr conf ptype ++ bytes)).length)) := by
      omega
    have hp0le : min (F - 4) (min 2047
        (((alpdu_hdr conf ptype ++ bytes)
           ++ alpdu_trailer conf 0 (alpdu_hdr conf ptype ++ bytes)).length
          - (alpdu_trailer conf 0 (alpdu_hdr conf ptype ++ bytes)).length))
        ≤ (alpdu_hdr conf ptype ++ bytes).length := by omega
    have hp02047 : min (F - 4) (min 2047
        (((alpdu_hdr conf ptype ++ bytes)
           ++ alpdu_trailer conf 0 (alpdu_hdr conf ptype ++ bytes)).length
          - (alpdu_trailer conf 0 (alpdu_hdr conf ptype ++ bytes)).length)) ≤ 2047 := by
      omega
    have hfull4095 : ((alpdu_hdr conf ptype ++ bytes)
        ++ alpdu_trailer conf 0 (alpdu_hdr conf ptype ++ bytes)).length ≤ 4095 := by
      omega
    have hu1 : (if conf.allow_alpdu_crc then 1 else 0) ≤ 1 := by split <;> simp
    have htklen : (((alpdu_hdr conf ptype ++ bytes)
        ++ alpdu_trailer conf 0 (alpdu_hdr conf ptype ++ bytes)).take
          (min (F - 4) (min 2047
            (((alpdu_hdr conf ptype ++ bytes)
               ++ alpdu_trailer conf 0 (alpdu_hdr conf ptype ++ bytes)).length
              - (alpdu_trailer conf 0 (alpdu_hdr conf ptype ++ bytes)).length)))).length
        = min (F - 4) (min 2047
            (((alpdu_hdr conf ptype ++ bytes)
               ++ alpdu_trailer conf 0 (alpdu_hdr conf ptype ++ bytes)).length
              - (alpdu_trailer conf 0 (alpdu_hdr conf ptype ++ bytes)).length)) := by
      simp only [List.length_take]
      omega
    obtain ⟨_, _, hb3, _, _, _⟩ :=
      start_b0_facts (lt_of ptype) (pts_of conf ptype)
        (min (F - 4) (min 2047
          (((alpdu_hdr conf ptype ++ bytes)
             ++ alpdu_trailer conf 0 (alpdu_hdr conf ptype ++ bytes)).length
            - (alpdu_trailer conf 0 (alpdu_hdr conf ptype ++ bytes)).length)))
        (lt_of_le ptype) (pts_of_le conf ptype) hp02047
    simp only [pack_fpdus, List.map_cons, rle_decapsulate]
    rw [pack_len]
    rw [fpdu_scan_one conf _ _ _
      (by
        rw [show (ppdu_start_hdr (lt_of ptype) (pts_of conf ptype)
            (min (F - 4) (min 2047
              (((alpdu_hdr conf ptype ++ bytes)
                 ++ alpdu_trailer conf 0 (alpdu_hdr conf ptype ++ bytes)).length
                - (alpdu_trailer conf 0 (alpdu_hdr conf ptype ++ bytes)).length)))
            fragid
            ((alpdu_hdr conf ptype ++ bytes)
               ++ alpdu_trailer conf 0 (alpdu_hdr conf ptype ++ bytes)).length
            (if conf.allow_alpdu_crc then 1 else 0)
            ++ ((alpdu_hdr conf ptype ++ bytes)
                 ++ alpdu_trailer conf 0 (alpdu_hdr conf ptype ++ bytes)).take
                (min (F - 4) (min 2047
                  (((alpdu_hdr conf ptype ++ bytes)
                     ++ alpdu_trailer conf 0 (alpdu_hdr conf ptype ++ bytes)).length
                    - (alpdu_trailer conf 0
                        (alpdu_hdr conf ptype ++ bytes)).length)))).getD 0 0
            = 0x80 + lt_of ptype * 16 + pts_of conf ptype * 8
              + (min (F - 4) (min 2047
                  (((alpdu_hdr conf ptype ++ bytes)
                     ++ alpdu_trailer conf 0 (alpdu_hdr conf ptype ++ bytes)).length
                    - (alpdu_trailer conf 0
                        (alpdu_hdr conf ptype ++ bytes)).length))) / 256 by
          simp [ppdu_start_hdr]]
        exact hb3)
      (by
        have h1 := scan_plen_start (lt_of ptype) (pts_of conf ptype) fragid
          ((alpdu_hdr conf ptype ++ bytes)
             ++ alpdu_trailer conf 0 (alpdu_hdr conf ptype ++ bytes)).length
          (if conf.allow_alpdu_crc then 1 else 0)
          (((alpdu_hdr conf ptype ++ bytes)
             ++ alpdu_trailer conf 0 (alpdu_hdr conf ptype ++ bytes)).take
            (min (F - 4) (min 2047
              (((alpdu_hdr conf ptype ++ bytes)
                 ++ alpdu_trailer conf 0 (alpdu_hdr conf ptype ++ bytes)).length
                - (alpdu_trailer conf 0 (alpdu_hdr conf ptype ++ bytes)).length))))
          (lt_of_le ptype) (pts_of_le conf ptype) (by rw [htklen]; exact hp02047)
        rw [htklen] at h1
        exact h1)
      (by simp [ppdu_start_hdr])]
    rw [step_start conf _ ptype fragid _ _ _ _ hp02047 hfid hfull4095 hu1]
    rw [reassembly_start_round conf ptype fragid F _ _ bytes
      (alpdu_hdr conf ptype ++ bytes)
      (alpdu_trailer conf 0 (alpdu_hdr conf ptype ++ bytes))
      ((alpdu_hdr conf ptype ++ bytes)
        ++ alpdu_trailer conf 0 (alpdu_hdr conf ptype ++ bytes))
      ((fun _ => init_rcv_ctx) fragid)
      rfl rfl rfl rfl rfl rfl hval hpt hnib hF hfid hlen hcomp]
    rw [full_drop_p0 conf ptype bytes
      (alpdu_trailer conf 0 (alpdu_hdr conf ptype ++ bytes)) _ (by omega) hp0le]
    simp only [List.nil_append, List.append_nil]
    exact decap_frag_stream conf ptype fragid F bytes
      (alpdu_trailer conf 0 (alpdu_hdr conf ptype ++ bytes)) rfl hF hfid hval
      _ _ _
      (by omega)
      (by simp only [List.length_append, List.length_drop]; omega)
      (by simp [upd_ctx]) (by simp [upd_ctx]) (by simp [upd_ctx])
      (by simp [upd_ctx]) (by simp [upd_ctx]) (by simp [upd_ctx])
      (by simp [upd_ctx, init_rcv_ctx])

/-! ## Theorems for the claims -/

/-- C3 (code bug evaluated at the failing input): with fragment ids 0 and
1 both busy, `set_free_frag_ctx` on id 0 returns a bitmap of 0, so the
bit of fragment id 1 is cleared although its context still holds an
unfinished ALPDU; the release every caller intends (`clear_one_bit`)
would have kept it set. -/
theorem C3_release_clears_all_bits :
    is_frag_ctx_free (set_nonfree_frag_ctx (set_nonfree_frag_ctx 0 0) 1) 1 = true ∧
    set_free_frag_ctx (set_nonfree_frag_ctx (set_nonfree_frag_ctx 0 0) 1) 0 = 0 ∧
    is_frag_ctx_free
      (set_free_frag_ctx (set_nonfree_frag_ctx (set_nonfree_frag_ctx 0 0) 1) 0) 1 = false ∧
    clear_one_bit (set_nonfree_frag_ctx (set_nonfree_frag_ctx 0 0) 1) 0 = 2 ∧
    is_frag_ctx_free (clear_one_bit (set_nonfree_frag_ctx (set_nonfree_frag_ctx 0 0) 1) 0) 1
      = true := by
  decide

/-- C7 (counterexample): `rle_ctx_incr_seq_nb` is a bare uint8_t
increment; starting from the stored value 7 it yields 8, so the stored
next sequence number does not remain in the range 0..7. -/
theorem C7_seq_nb_leaves_range :
    (rle_ctx_incr_seq_nb ⟨0, 7, 0, 0⟩).next_seq_nb = 8 ∧
    ¬(rle_ctx_incr_seq_nb ⟨0, 7, 0, 0⟩).next_seq_nb < 8 := by
  decide

/-- C7 (amended): each call of `rle_ctx_incr_seq_nb` advances the stored
next_seq_nb by one modulo 256 (the uint8_t wrap), and therefore its low
three bits — the value the sequence-number trailer carries — advance by
one modulo 8; the stored byte itself ranges over 0..255. -/
theorem C7_seq_nb_incr_mod256 (c : rle_ctx_management) :
    (rle_ctx_incr_seq_nb c).next_seq_nb = (c.next_seq_nb + 1) % 256 ∧
    (rle_ctx_incr_seq_nb c).next_seq_nb % 8 = (c.next_seq_nb % 8 + 1) % 8 := by
  refine ⟨rfl, ?_⟩
  show (c.next_seq_nb + 1) % 256 % 8 = (c.next_seq_nb % 8 + 1) % 8
  omega

/-- C9: `rle_ctx_set_label_type` rejects every value, the two legal
label types included, because its guard uses a disjunction where a
conjunction was meant; the stored label type is never changed. -/
theorem C9_set_label_type_rejects_all (c : rle_ctx_management) (val : Nat) :
    rle_ctx_set_label_type c val = c := by
  unfold rle_ctx_set_label_type
  rw [if_pos]
  rcases eq_or_ne val RLE_LT_IMPLICIT_PROTO_TYPE with h | h
  · exact Or.inr (by rw [h]; decide)
  · exact Or.inl h

/-- C10: each aggregate transmitter statistics query returns the sum of
the corresponding per-context counter over the eight fragment-id
contexts (and, being a pure function of the transmitter, reading it
changes no state). -/
theorem C10_counters_sum_contexts (t : rle_transmitter) :
    rle_transmitter_get_counter_ok t =
      ∑ i ∈ Finset.range 8, (t.rle_ctx_man i).ctr_ok ∧
    rle_transmitter_get_counter_dropped t =
      ∑ i ∈ Finset.range 8, (t.rle_ctx_man i).ctr_dropped ∧
    rle_transmitter_get_counter_lost t =
      ∑ i ∈ Finset.range 8, (t.rle_ctx_man i).ctr_lost ∧
    rle_transmitter_get_counter_bytes t =
      ∑ i ∈ Finset.range 8, (t.rle_ctx_man i).ctr_bytes := by
  refine ⟨?_, ?_, ?_, ?_⟩ <;>
    simp [rle_transmitter_get_counter_ok, rle_transmitter_get_counter_dropped,
      rle_transmitter_get_counter_lost, rle_transmitter_get_counter_bytes,
      RLE_MAX_FRAG_NUMBER, List.range_succ, Finset.sum_range_succ]

/-- C8: for every valid configuration the header-overhead query returns
6 for a Logon FPDU, 3 for a Control FPDU and 5 for a Traffic-Control
FPDU, and reports the Traffic FPDU overhead non-deterministic. -/
theorem C8_header_size (conf : rle_config) (h : valid_config conf = true) :
    rle_get_header_size conf .logon = .size_ok 6 ∧
    rle_get_header_size conf .ctrl = .size_ok 3 ∧
    rle_get_header_size conf .traffic_ctrl = .size_ok 5 ∧
    rle_get_header_size conf .traffic = .err_non_deterministic :=
  ⟨rfl, rfl, rfl, rfl⟩

/-- C8 witness: the query evaluated under the sequence-number
configuration of the test file. -/
theorem C8_header_size_witness :
    valid_config ⟨false, false, false, true, false, 0x00, 0, 0, 0⟩ = true ∧
    rle_get_header_size ⟨false, false, false, true, false, 0x00, 0, 0, 0⟩ .traffic_ctrl
      = .size_ok 5 :=
  ⟨by decide, (C8_header_size _ (by decide)).2.2.1⟩

/-- C6: with compression and omission disabled, encapsulating a
4088-byte SDU into a free fragment-id context succeeds while a
4089-byte SDU is rejected with `SDU_TOO_BIG` and the transmitter state
is returned untouched. -/
theorem C6_encap_boundary (t : rle_transmitter_state) (conf : rle_config)
    (sdu : rle_sdu) (frag_id : Nat)
    (hconf : conf.use_compressed_ptype = false ∧ conf.allow_ptype_omission = false)
    (hfree : is_frag_ctx_free t.free_ctx frag_id = false) :
    (sdu.buffer.length = 4088 → (rle_encapsulate t conf sdu frag_id).1 = .ok) ∧
    (sdu.buffer.length = 4089 →
      rle_encapsulate t conf sdu frag_id = (.err_sdu_too_big, t)) := by
  constructor <;> intro h <;> simp [rle_encapsulate, RLE_MAX_PDU_SIZE, h, hfree]

/-- C6 witness: the boundary evaluated on a fresh transmitter (empty
busy bitmap) at concrete 4088- and 4089-byte SDUs of IPv4 type. -/
theorem C6_encap_boundary_witness :
    is_frag_ctx_free (0 : Nat) 0 = false ∧
    ((rle_encapsulate ⟨0, fun _ => []⟩ ⟨false, false, false, true, false, 0, 0, 0, 0⟩
      ⟨List.replicate 4088 0, 0x0800⟩ 0).1 = .ok ∧
    rle_encapsulate ⟨0, fun _ => []⟩ ⟨false, false, false, true, false, 0, 0, 0, 0⟩
      ⟨List.replicate 4089 0, 0x0800⟩ 0 = (.err_sdu_too_big, ⟨0, fun _ => []⟩)) :=
  ⟨rfl,
   (C6_encap_boundary _ _ _ _ ⟨rfl, rfl⟩ (by decide)).1 (List.length_replicate 4088 0),
   (C6_encap_boundary _ _ _ _ ⟨rfl, rfl⟩ (by decide)).2 (List.length_replicate 4089 0)⟩

/-- C2 (counterexample): for the L2S signal type 0x0082 under a
configuration with `allow_ptype_omission` clear and compression clear,
the claim predicts a 2-byte uncompressed header, but the code omits the
type (header length 0): the test's `is_suppressible` treats 0x0082 as
suppressible regardless of the omission flag. -/
theorem C2_signal_always_omitted :
    claimed_alpdu_hdr_len ⟨false, false, false, true, false, 0x00, 0, 0, 0⟩ 0x0082 = 2 ∧
    alpdu_hdr ⟨false, false, false, true, false, 0x00, 0, 0, 0⟩ 0x0082 = [] ∧
    (alpdu_hdr ⟨false, false, false, true, false, 0x00, 0, 0, 0⟩ 0x0082).length = 0 := by
  decide

/-- C2 (amended): the ALPDU header is a function of the configuration
and the SDU protocol type alone, with length 0 when the type is omitted
— for the L2S signal type 0x0082 always, or when `allow_ptype_omission`
is set and the pair is in the suppressibility table — length 1 (the
compressed code) when compression applies to a known type, length 3
(0xff then the little-endian type) when compression applies to an
unknown type, and length 2 (the little-endian type) otherwise. -/
theorem C2_alpdu_header_cases (conf : rle_config) (ptype : Nat)
    (h : ptype < 65536) :
    (ptype_is_omitted conf ptype = true → alpdu_hdr conf ptype = []) ∧
    (ptype_is_omitted conf ptype = false → conf.use_compressed_ptype = true →
      (∀ c, rle_header_ptype_compression ptype = some c → alpdu_hdr conf ptype = [c]) ∧
      (rle_header_ptype_compression ptype = none →
        alpdu_hdr conf ptype = [0xff, ptype % 256, ptype / 256])) ∧
    (ptype_is_omitted conf ptype = false → conf.use_compressed_ptype = false →
      alpdu_hdr conf ptype = [ptype % 256, ptype / 256]) ∧
    ((alpdu_hdr conf ptype).length = 0 ∨ (alpdu_hdr conf ptype).length = 1 ∨
      (alpdu_hdr conf ptype).length = 2 ∨ (alpdu_hdr conf ptype).length = 3) := by
  have hdiv : ptype / 256 % 256 = ptype / 256 := by omega
  refine ⟨fun ho => by simp [alpdu_hdr, ho], fun ho hc => ⟨fun c hcomp => ?_, fun hcomp => ?_⟩,
    fun ho hc => ?_, ?_⟩
  · simp [alpdu_hdr, ho, hc, hcomp]
  · simp [alpdu_hdr, ho, hc, hcomp, hdiv]
  · simp [alpdu_hdr, ho, hc, hdiv]
  · unfold alpdu_hdr
    split
    · exact Or.inl rfl
    · split
      · rcases hx : rle_header_ptype_compression ptype with _ | c <;> simp [hx]
      · simp

/-- C2 witness: the amended case analysis evaluated at the uncompressed
IPv4 scenario of spec §8 (expected header `[0x00, 0x08]`). -/
theorem C2_alpdu_header_cases_witness :
    alpdu_hdr ⟨false, false, false, true, false, 0x00, 0, 0, 0⟩ 0x0800 = [0x00, 0x08] :=
  (C2_alpdu_header_cases ⟨false, false, false, true, false, 0x00, 0, 0, 0⟩ 0x0800
    (by decide)).2.2.1 (by decide) rfl

/-- C5: `reassembly_insert_vlan_ptype` drops frames shorter than 17
bytes, frames whose outer EtherType is not VLAN and frames whose IP
version nibble is neither 4 nor 6; otherwise it delivers a 2-byte-longer
SDU of protocol type 0x8100 with the restored EtherType (0x0800 for
version 4, 0x86dd for version 6) inserted at offset 16, the VLAN
header's protocol-type position, and every other byte preserved. -/
theorem C5_insert_vlan_ptype (s : List Nat) :
    (s.length < 17 → reassembly_insert_vlan_ptype s = none) ∧
    (17 ≤ s.length → s.getD 12 0 * 256 + s.getD 13 0 ≠ 0x8100 →
      reassembly_insert_vlan_ptype s = none) ∧
    (17 ≤ s.length → s.getD 12 0 * 256 + s.getD 13 0 = 0x8100 →
      s.getD 16 0 / 16 % 16 ≠ 4 → s.getD 16 0 / 16 % 16 ≠ 6 →
      reassembly_insert_vlan_ptype s = none) ∧
    (17 ≤ s.length → s.getD 12 0 * 256 + s.getD 13 0 = 0x8100 →
      s.getD 16 0 / 16 % 16 = 4 →
      reassembly_insert_vlan_ptype s =
        some (s.take 16 ++ [0x08, 0x00] ++ s.drop 16, 0x8100) ∧
      (s.take 16 ++ [0x08, 0x00] ++ s.drop 16).length = s.length + 2) ∧
    (17 ≤ s.length → s.getD 12 0 * 256 + s.getD 13 0 = 0x8100 →
      s.getD 16 0 / 16 % 16 = 6 →
      reassembly_insert_vlan_ptype s =
        some (s.take 16 ++ [0x86, 0xdd] ++ s.drop 16, 0x8100) ∧
      (s.take 16 ++ [0x86, 0xdd] ++ s.drop 16).length = s.length + 2) := by
  have hlen : 17 ≤ s.length → (s.take 16 ++ [0x08, 0x00] ++ s.drop 16).length
      = s.length + 2 := by
    intro h
    simp only [List.length_append, List.length_take, List.length_drop,
      List.length_cons, List.length_nil]
    omega
  have hlen6 : 17 ≤ s.length → (s.take 16 ++ [0x86, 0xdd] ++ s.drop 16).length
      = s.length + 2 := by
    intro h
    simp only [List.length_append, List.length_take, List.length_drop,
      List.length_cons, List.length_nil]
    omega
  refine ⟨fun h => by simp [reassembly_insert_vlan_ptype, h],
    fun h1 h2 => ?_, fun h1 h2 h4 h6 => ?_,
    fun h1 h2 h4 => ⟨?_, hlen h1⟩, fun h1 h2 h6 => ⟨?_, hlen6 h1⟩⟩
  · simp only [reassembly_insert_vlan_ptype, RLE_PROTO_TYPE_VLAN_UNCOMP,
      if_neg (by omega : ¬s.length < 17)]
    simp only [List.getD_eq_getElem?_getD] at h2
    simp [h2]
  · simp only [reassembly_insert_vlan_ptype, RLE_PROTO_TYPE_VLAN_UNCOMP,
      if_neg (by omega : ¬s.length < 17)]
    simp only [List.getD_eq_getElem?_getD] at h2 h4 h6
    simp [h2, h4, h6]
  · simp only [reassembly_insert_vlan_ptype, RLE_PROTO_TYPE_VLAN_UNCOMP,
      if_neg (by omega : ¬s.length < 17)]
    simp only [List.getD_eq_getElem?_getD] at h2 h4
    simp [h2, h4]
  · simp only [reassembly_insert_vlan_ptype, RLE_PROTO_TYPE_VLAN_UNCOMP,
      if_neg (by omega : ¬s.length < 17)]
    simp only [List.getD_eq_getElem?_getD] at h2 h6
    simp [h2, h6]

/-- C5 witness: a minimal 17-byte VLAN/IPv4 frame evaluated through the
theorem. -/
theorem C5_insert_vlan_ptype_witness :
    reassembly_insert_vlan_ptype
      (List.replicate 12 0 ++ [0x81, 0x00, 0, 0, 0x45]) =
      some (List.replicate 12 0 ++ [0x81, 0x00, 0, 0, 0x08, 0x00, 0x45], 0x8100) :=
  (((C5_insert_vlan_ptype (List.replicate 12 0 ++ [0x81, 0x00, 0, 0, 0x45])).2.2.2.1
    (by decide) (by decide) (by decide)).1).trans (by decide)

/-- C4 (counterexample): an END PPDU that leaves SDU bytes missing is an
error — no SDU is delivered, the dropped counter is incremented and the
context is released — but the lost counter is NOT incremented: the error
epilogue of `reassembly_end_ppdu` adds `lost_packets`, which is still 0
on this path. -/
theorem C4_end_missing_bytes_keeps_lost :
    (reassembly_end_ppdu ⟨false, false, false, true, false, 0, 0, 0, 0⟩ c4_busy_ctx
      (ppdu_end_hdr 3 0 ++ [1, 2, 0])).2 = none ∧
    (reassembly_end_ppdu ⟨false, false, false, true, false, 0, 0, 0, 0⟩ c4_busy_ctx
      (ppdu_end_hdr 3 0 ++ [1, 2, 0])).1.ctr_dropped = c4_busy_ctx.ctr_dropped + 1 ∧
    (reassembly_end_ppdu ⟨false, false, false, true, false, 0, 0, 0, 0⟩ c4_busy_ctx
      (ppdu_end_hdr 3 0 ++ [1, 2, 0])).1.ctr_lost = c4_busy_ctx.ctr_lost ∧
    (reassembly_end_ppdu ⟨false, false, false, true, false, 0, 0, 0, 0⟩ c4_busy_ctx
      (ppdu_end_hdr 3 0 ++ [1, 2, 0])).1.free = true := by
  decide

/-- C4 (amended): every reassembly error on a CONT or END PPDU delivers
no SDU, increments the per-context dropped counter, counts the bytes of
the current burst as dropped and releases the fragment-id context; the
lost counter, however, is incremented by one only for the CONT-stage
errors and for an END arriving on a free context (where the in-line
error block and the shared epilogue both run, so the drop and the burst
bytes are counted twice); for every other END-stage error (trailer bytes
missing, declared length exceeded, bytes still missing, VLAN rebuild
failure, trailer mismatch) the epilogue adds `lost_packets`, still zero,
so the lost counter is unchanged. -/
theorem C4_receiver_error_handling (conf : rle_config) (c : rle_rcv_ctx)
    (ppdu : List Nat) :
    (c.free = true →
      (reassembly_cont_ppdu c ppdu).free = true ∧
      (reassembly_cont_ppdu c ppdu).ctr_dropped = c.ctr_dropped + 1 ∧
      (reassembly_cont_ppdu c ppdu).ctr_lost = c.ctr_lost + 1 ∧
      (reassembly_cont_ppdu c ppdu).ctr_bytes_dropped
        = c.ctr_bytes_dropped + (c.current_counter + ppdu.length)) ∧
    (c.free = false →
      c.sdu_total < c.collected.length + (ppdu.drop 2).length →
      (reassembly_cont_ppdu c ppdu).free = true ∧
      (reassembly_cont_ppdu c ppdu).ctr_dropped = c.ctr_dropped + 1 ∧
      (reassembly_cont_ppdu c ppdu).ctr_lost = c.ctr_lost + 1 ∧
      (reassembly_cont_ppdu c ppdu).ctr_bytes_dropped
        = c.ctr_bytes_dropped + (c.current_counter + ppdu.length)) ∧
    (c.free = true →
      (reassembly_end_ppdu conf c ppdu).2 = none ∧
      (reassembly_end_ppdu conf c ppdu).1.free = true ∧
      (reassembly_end_ppdu conf c ppdu).1.ctr_dropped = c.ctr_dropped + 2 ∧
      (reassembly_end_ppdu conf c ppdu).1.ctr_lost = c.ctr_lost + 1 ∧
      (reassembly_end_ppdu conf c ppdu).1.ctr_bytes_dropped
        = c.ctr_bytes_dropped + 2 * (c.current_counter + ppdu.length)) ∧
    (c.free = false →
      (reassembly_end_ppdu conf c ppdu).2 = none →
      (reassembly_end_ppdu conf c ppdu).1.free = true ∧
      (reassembly_end_ppdu conf c ppdu).1.ctr_dropped = c.ctr_dropped + 1 ∧
      (reassembly_end_ppdu conf c ppdu).1.ctr_lost = c.ctr_lost ∧
      (reassembly_end_ppdu conf c ppdu).1.ctr_bytes_dropped
        = c.ctr_bytes_dropped + (c.current_counter + ppdu.length)) := by
  refine ⟨fun hfree => ?_, fun hbusy hover => ?_, fun hfree => ?_, fun hbusy hnone => ?_⟩
  · simp [reassembly_cont_ppdu, ctx_error_release, hfree]
    try omega
  · simp only [reassembly_cont_ppdu, cont_end_ppdu_extract_alpdu_frag, hbusy,
      if_neg (Bool.false_ne_true), ctx_error_release]
    rw [if_pos (by simpa using hover)]
    simp
    try omega
  · simp [reassembly_end_ppdu, ctx_error_release, hfree]
    try omega
  · unfold reassembly_end_ppdu at hnone ⊢
    simp only [hbusy, Bool.false_eq_true, if_false] at hnone ⊢
    split_ifs at hnone ⊢ <;>
      try (simp_all [ctx_error_release] <;> try omega)
    all_goals try (split at hnone <;> try (simp_all [ctx_error_release] <;> try omega))
    all_goals try (split at hnone <;> try (simp_all [ctx_error_release] <;> try omega))

/-- C4 witness: a CONT PPDU arriving on a fresh (free) context, run
through the amended theorem. -/
theorem C4_receiver_error_handling_witness :
    (reassembly_cont_ppdu init_rcv_ctx (ppdu_cont_hdr 3 0 ++ [1, 2, 3])).free = true ∧
    (reassembly_cont_ppdu init_rcv_ctx (ppdu_cont_hdr 3 0 ++ [1, 2, 3])).ctr_dropped = 1 ∧
    (reassembly_cont_ppdu init_rcv_ctx (ppdu_cont_hdr 3 0 ++ [1, 2, 3])).ctr_lost = 1 :=
  have h := (C4_receiver_error_handling ⟨false, false, false, true, false, 0, 0, 0, 0⟩
    init_rcv_ctx (ppdu_cont_hdr 3 0 ++ [1, 2, 3])).1 rfl
  ⟨h.1, (h.2.1).trans (by decide), (h.2.2.1).trans (by decide)⟩

/-- C1 (counterexample): under the valid configuration that enables
protocol-type omission with implicit compressed type 0x30 (IPv4 or IPv6,
told apart by the payload's version nibble), the one-byte SDU [0x60]
declared as IPv4 (0x0800) comes back from the pipeline byte-equal but
with protocol type 0x86dd (IPv6): the receiver rebuilds the omitted type
from the version nibble alone, so the round trip does not return the
declared 16-bit protocol type. -/
theorem C1_round_trip_type_mismatch :
    valid_config ⟨true, false, false, true, false, 0x30, 0, 0, 0⟩ = true ∧
    rle_pipeline ⟨true, false, false, true, false, 0x30, 0, 0, 0⟩
        ⟨[0x60], 0x0800⟩ 0 38
      = [([0x60], 0x86dd)] ∧
    (0x86dd : Nat) ≠ 0x0800 :=
  ⟨by decide, by decide, by decide⟩

/-- C1 (amended): for every valid shared configuration, SDU of at most
4088 bytes with a 16-bit protocol type, fragment id and FPDU size of at
least 38 bytes, encapsulating the SDU, emitting its PPDUs into FPDUs
and decapsulating the FPDU sequence with a fresh identically configured
receiver delivers exactly one SDU, byte-equal to the input and with the
input's protocol type - provided that under the implicit-0x30
configuration the SDU's leading version nibble matches its declared IP
protocol type. -/
theorem C1_round_trip (conf : rle_config) (sdu : rle_sdu) (fragid F : Nat)
    (hval : valid_config conf = true)
    (hlen : sdu.buffer.length ≤ 4088)
    (hpt : sdu.protocol_type < 65536)
    (hfid : fragid ≤ 7)
    (hF : 38 ≤ F)
    (hnib : ip_nibble_ok conf sdu) :
    rle_pipeline conf sdu fragid F = [(sdu.buffer, sdu.protocol_type)] :=
  rle_round_trip conf sdu.buffer sdu.protocol_type fragid F hval hlen hpt hfid hF hnib

/-- C1 witness: the amended round trip evaluated at the uncompressed
sequence-number configuration on a three-byte SDU of type 0x0800,
fragment id 0 and FPDU size 38. -/
theorem C1_round_trip_witness :
    rle_pipeline ⟨false, false, false, true, false, 0, 0, 0, 0⟩
        ⟨[1, 2, 3], 0x0800⟩ 0 38
      = [([1, 2, 3], 0x0800)] :=
  C1_round_trip ⟨false, false, false, true, false, 0, 0, 0, 0⟩
    ⟨[1, 2, 3], 0x0800⟩ 0 38 (by decide) (by decide) (by decide) (by decide)
    (by decide) (by intro h; exact Bool.noConfusion h)

end RLE
